import Mathlib

/-!
# HTTP service toolkit of `commons`: error model, response writers, request decoders

A shallow embedding of `commonerror/err.go`, `uuid/gugu.go` and `httputils/server.go`.
Go values are modelled as follows.

* A Go `string` is a Lean `String`; a `[]byte` read from a file is a list of byte values.
* A Go `interface{}` value is a `Value`; `Value.unsupported` stands for the values that
  `encoding/json` refuses (channels, functions, ...).
* A Go `error` is a `GoError`: `nil`, a `commonerror.Error` value, an error that offers a
  `Cause()` method (the wrappers of `github.com/pkg/errors`), or any other error.
* A Go `map` is the list of its entries; for `ErrorParams` the entries are listed in the
  order `encoding/json` writes them (sorted by key).
* `(result, err)` pairs stay pairs, and `err != nil` stays a test against `GoError.nil`.
-/

set_option autoImplicit false
set_option linter.dupNamespace false

/-! ## `encoding/json`: the part the toolkit relies on -/

namespace json

/-- Lower-case hexadecimal digit of a number below sixteen. -/
def hexDigit (n : Nat) : Char :=
  if n < 10 then Char.ofNat (48 + n) else Char.ofNat (87 + n)

/-- Escape of one character inside a JSON string, as `json.Marshal` writes it
(HTML escaping on). -/
def escapeChar (c : Char) : String :=
  if c.toNat = 34 then "\\\""
  else if c.toNat = 92 then "\\\\"
  else if c.toNat = 8 then "\\b"
  else if c.toNat = 12 then "\\f"
  else if c.toNat = 10 then "\\n"
  else if c.toNat = 13 then "\\r"
  else if c.toNat = 9 then "\\t"
  else if c.toNat < 32 ∨ c.toNat = 60 ∨ c.toNat = 62 ∨ c.toNat = 38 then
    "\\u00" ++ String.mk [hexDigit (c.toNat / 16), hexDigit (c.toNat % 16)]
  else if c.toNat = 8232 then "\\u2028"
  else if c.toNat = 8233 then "\\u2029"
  else String.mk [c]

/-- A Go string as a JSON string literal. -/
def encodeString (s : String) : String :=
  "\"" ++ String.join (s.toList.map escapeChar) ++ "\""

end json

/-! ## Package `commonerror` -/

namespace commonerror

/-- A Go `interface{}` value. -/
inductive Value where
  | null
  | str (s : String)
  | int (n : Int)
  | bool (b : Bool)
  | unsupported (typeName : String)
  deriving DecidableEq

/-- ErrorParams represents the functionality of error parameters. -/
abbrev ErrorParams := List (String × Value)

/-- ErrorCode is a machine friendly description of an error. -/
abbrev ErrorCode := String

/-- ErrorMessage is a human friendly description of an error. -/
abbrev ErrorMessage := String

/-- Error is a representation of an api Error. -/
structure Error where
  Code : ErrorCode
  Message : ErrorMessage
  Params : ErrorParams
  deriving DecidableEq

/-- A Go `error` value.  `foreign` and `causer` carry what the toolkit can observe of
them: the text of `Error()`, the bytes `json.Marshal` makes of the value (`\x7b\x7d` for
the errors of `errors.New`, `fmt.Errorf` and `github.com/pkg/errors`, which have no exported
field), and for `causer` the result of `Cause()`. -/
inductive GoError where
  | nil
  | api (e : Error)
  | foreign (msg : String) (enc : String)
  | causer (msg : String) (enc : String) (cause : GoError)
  deriving DecidableEq

def invalidReqBodyErrCode : ErrorCode := "invalid request body"
def invalidReqBodyErrMesssage : ErrorMessage :=
  "One or more inputs are invalid, please enter valid information"
def serverErrCode : ErrorCode := "Internal server error"
def serverErrMessage : ErrorMessage := "Something unplanned for has gone wrong"
def unauthErrMsg : ErrorMessage := "Authentication details were not provided"
def authenticationErrMsg : ErrorMessage := "Authentication credentials are invalid"

/-- The error `json.Marshal` returns for a value it cannot encode. -/
def unsupportedTypeError (typeName : String) : GoError :=
  .foreign ("json: unsupported type: " ++ typeName) "\x7b\"Type\":\x7b\x7d\x7d"

/-- JSON text of an `interface{}` value. -/
def Value.encode : Value → Except GoError String
  | .null => .ok "null"
  | .str s => .ok (json.encodeString s)
  | .int n => .ok (toString n)
  | .bool b => .ok (if b then "true" else "false")
  | .unsupported t => .error (unsupportedTypeError t)

/-- The entries of a params map, each as `key` and encoded value. -/
def encodeEntries : ErrorParams → Except GoError (List (String × String))
  | [] => .ok []
  | (k, v) :: rest =>
    match v.encode with
    | .error e => .error e
    | .ok ev =>
      match encodeEntries rest with
      | .error e => .error e
      | .ok er => .ok ((json.encodeString k, ev) :: er)

/-- Compact JSON of an `Error`: `code` and `params` are `omitempty`. -/
def Error.marshal (e : Error) : Except GoError String :=
  match encodeEntries e.Params with
  | .error err => .error err
  | .ok ps =>
    let code := if e.Code = "" then [] else ["\"code\":" ++ json.encodeString e.Code]
    let message := ["\"message\":" ++ json.encodeString e.Message]
    let params :=
      if ps.isEmpty then []
      else ["\"params\":\x7b" ++ ",".intercalate (ps.map fun kv => kv.1 ++ ":" ++ kv.2) ++ "\x7d"]
    .ok ("\x7b" ++ ",".intercalate (code ++ message ++ params) ++ "\x7d")

/-- JSON of an `Error` as `json.MarshalIndent(&e, "", "\t")` lays it out. -/
def Error.marshalIndent (e : Error) : Except GoError String :=
  match encodeEntries e.Params with
  | .error err => .error err
  | .ok ps =>
    let code := if e.Code = "" then [] else ["\t\"code\": " ++ json.encodeString e.Code]
    let message := ["\t\"message\": " ++ json.encodeString e.Message]
    let params :=
      if ps.isEmpty then []
      else ["\t\"params\": \x7b\n"
              ++ ",\n".intercalate (ps.map fun kv => "\t\t" ++ kv.1 ++ ": " ++ kv.2)
              ++ "\n\t\x7d"]
    .ok ("\x7b\n" ++ ",\n".intercalate (code ++ message ++ params) ++ "\n\x7d")

/-- Method `Error()` of `commonerror.Error`. -/
def Error.Error (e : Error) : String :=
  match e.marshalIndent with
  | .error _ => "Unmarshed error message: " ++ e.Code
  | .ok msg => msg

/-- Text of a Go error: its `Error()` method; `<nil>` is what `fmt` prints for a nil
error (the method itself is never called on nil). -/
def GoError.Error : GoError → String
  | .nil => "<nil>"
  | .api e => e.Error
  | .foreign msg _ => msg
  | .causer msg _ _ => msg

/-- NewErrorParams initializes an error params value. -/
def NewErrorParams (k v : String) : ErrorParams := [(k, .str v)]

/-- BadRequestError creates a new bad request error. -/
def BadRequestError (p : ErrorParams) : Error :=
  { Code := invalidReqBodyErrCode, Message := invalidReqBodyErrMesssage, Params := p }

/-- UnauthorizedError creates a unauthorized error. -/
def UnauthorizedError (_p : ErrorParams) : Error :=
  { Code := "", Message := unauthErrMsg, Params := [] }

/-- UnAuthenticatedError creates an authentication error message. -/
def UnAuthenticatedError (_p : ErrorParams) : Error :=
  { Code := "", Message := authenticationErrMsg, Params := [] }

/-- ServerError creates a new server down error. -/
def ServerError (p : ErrorParams) : Error :=
  { Code := serverErrCode, Message := serverErrMessage, Params := p }

/-- ToBadRequest converts error params to a Bad Request Error. -/
def ErrorParams.ToBadRequest (p : ErrorParams) : Error := BadRequestError p

/-- `errors.Cause` of `github.com/pkg/errors`: follow `Cause()` while the error offers it. -/
def Cause : GoError → GoError
  | .causer _ _ cause => Cause cause
  | err => err

/-- `errors.Wrap` of `github.com/pkg/errors`: nil stays nil; otherwise a stack holder
around a message holder around `err`, both offering `Cause()`. -/
def Wrap (err : GoError) (message : String) : GoError :=
  if err = .nil then .nil
  else
    let text := message ++ ": " ++ err.Error
    .causer text "\x7b\x7d" (.causer text "\x7b\x7d" err)

/-- IsBadRequestError checks if an error is a bad request error. -/
def IsBadRequestError (err : GoError) : Bool :=
  match Cause err with
  | .api customErr => customErr.Code == invalidReqBodyErrCode
  | _ => false

/-- IsUnathourizedError checks if an error is an unauthorized error. -/
def IsUnathourizedError (err : GoError) : Bool :=
  match Cause err with
  | .api customErr => customErr.Message == unauthErrMsg
  | _ => false

/-- IsUnAuthenticatedError checks if an error is an authtentication error. -/
def IsUnAuthenticatedError (err : GoError) : Bool :=
  match Cause err with
  | .api customErr => customErr.Message == authenticationErrMsg
  | _ => false

/-- IsServerError checks if an error is an internal server error. -/
def IsServerError (err : GoError) : Bool :=
  match Cause err with
  | .api customErr => customErr.Code == serverErrCode
  | _ => false

/-- Number of classification predicates that hold of an error. -/
def classCount (err : GoError) : Nat :=
  (if IsBadRequestError err then 1 else 0) + (if IsUnathourizedError err then 1 else 0)
    + (if IsUnAuthenticatedError err then 1 else 0) + (if IsServerError err then 1 else 0)

/-- Nested context wraps: the messages are applied innermost first. -/
def wrapAll (err : GoError) (messages : List String) : GoError :=
  messages.foldl Wrap err

end commonerror

/-! ## Package `uuid` -/

namespace uuid

open commonerror

/-- V4 is a type representing a v4 UUID string. -/
abbrev V4 := String

/-- UTF-8 bytes of one character. -/
def charBytes (c : Char) : List Nat :=
  let n := c.toNat
  if n < 128 then [n]
  else if n < 2048 then [192 + n / 64, 128 + n % 64]
  else if n < 65536 then [224 + n / 4096, 128 + n / 64 % 64, 128 + n % 64]
  else [240 + n / 262144, 128 + n / 4096 % 64, 128 + n / 64 % 64, 128 + n % 64]

/-- The bytes of a Go string. -/
def bytesOf (s : String) : List Nat :=
  s.toList.flatMap charBytes

/-- Table `xvalues` of `github.com/google/uuid`: the value of a hexadecimal digit byte,
255 for every other byte. -/
def xvalues (b : Nat) : Nat :=
  if 48 ≤ b ∧ b ≤ 57 then b - 48
  else if 65 ≤ b ∧ b ≤ 70 then b - 55
  else if 97 ≤ b ∧ b ≤ 102 then b - 87
  else 255

/-- Function `xtob` of `github.com/google/uuid`: two hexadecimal digits to a byte. -/
def xtob (x1 x2 : Nat) : Nat × Bool :=
  let b1 := xvalues x1
  let b2 := xvalues x2
  (((b1 * 16) % 256) ||| b2, b1 != 255 && b2 != 255)

/-- ASCII lower case of a byte. -/
def lowerByte (b : Nat) : Nat :=
  if 65 ≤ b ∧ b ≤ 90 then b + 32 else b

/-- Decode the digit pairs that start at the given offsets of `s`. -/
def decodePairs (s : List Nat) : List Nat → List Nat × Bool
  | [] => ([], true)
  | x :: xs =>
    let (v, ok) := xtob (s.getD x 0) (s.getD (x + 1) 0)
    if !ok then ([], false)
    else
      let (rest, okRest) := decodePairs s xs
      if okRest then (v :: rest, true) else ([], false)

/-- `uuid.Parse` of `github.com/google/uuid` on the bytes of its argument: the sixteen
bytes decoded, and the error.  It accepts the 36-byte hyphenated form, the same after
`urn:uuid:` or inside one leading and one trailing byte, and 32 hexadecimal digits; no
form looks at the version or variant digit.  The callers test the error against nil only,
so the error texts are shortened and a failed parse yields no bytes. -/
def ParseBytes (s : List Nat) : List Nat × GoError :=
  let invalidFormat : GoError := .foreign "invalid UUID format" "\x7b\x7d"
  let dashed (s : List Nat) : List Nat × GoError :=
    if s.getD 8 0 ≠ 45 ∨ s.getD 13 0 ≠ 45 ∨ s.getD 18 0 ≠ 45 ∨ s.getD 23 0 ≠ 45 then
      ([], invalidFormat)
    else
      let (uuid, ok) :=
        decodePairs s [0, 2, 4, 6, 9, 11, 14, 16, 19, 21, 24, 26, 28, 30, 32, 34]
      if ok then (uuid, .nil) else ([], invalidFormat)
  if s.length = 36 then dashed s
  else if s.length = 36 + 9 then
    if (s.take 9).map lowerByte ≠ bytesOf "urn:uuid:" then
      ([], .foreign "invalid urn prefix" "\x7b\x7d")
    else dashed (s.drop 9)
  else if s.length = 36 + 2 then dashed (s.drop 1)
  else if s.length = 32 then
    let (uuid, ok) := decodePairs s ((List.range 16).map (· * 2))
    if ok then (uuid, .nil) else ([], invalidFormat)
  else ([], .foreign "invalid UUID length" "\x7b\x7d")

/-- `uuid.Parse` of `github.com/google/uuid`. -/
def Parse (s : String) : List Nat × GoError :=
  ParseBytes (bytesOf s)

/-- IsValidUUID checks if a given string is a valid v4 UUID. -/
def IsValidUUID (u : String) : Bool :=
  let (_, err) := Parse u
  err == .nil

/-- GenFromString returns a uuid  from string. -/
def GenFromString (uuid : String) : V4 × GoError :=
  let ok := IsValidUUID uuid
  if !ok then
    ("", .foreign ("Unable to generate UUID V4 from invalid value=" ++ uuid) "\x7b\x7d")
  else (uuid, .nil)

/-- The text form of a version-4 UUID: 36 bytes, hyphens at offsets 8, 13, 18 and 23,
hexadecimal digits elsewhere, version digit `4` at offset 14 and variant digit `8`, `9`,
`a` or `b` (either case) at offset 19. -/
def isV4Text (u : String) : Bool :=
  let s := bytesOf u
  s.length == 36
    && (List.range 36).all (fun i =>
          if i = 8 ∨ i = 13 ∨ i = 18 ∨ i = 23 then s.getD i 0 == 45
          else xvalues (s.getD i 0) != 255)
    && s.getD 14 0 == 52
    && (s.getD 19 0 == 56 || s.getD 19 0 == 57 || lowerByte (s.getD 19 0) == 97
          || lowerByte (s.getD 19 0) == 98)

end uuid

/-! ## Package `httputils` -/

namespace httputils

open commonerror

def successMessage : String := "success"
def failureMessage : String := "error"
def noReqBody : String := "EOF"

def StatusBadRequest : Nat := 400
def StatusUnauthorized : Nat := 401
def StatusForbidden : Nat := 403
def StatusInternalServerError : Nat := 500

/-- GenericResponse is a representation of a server response.  A nil `Data` is
`Value.null`, a nil `Error` is `GoError.nil`. -/
structure GenericResponse where
  Status : String
  Data : Value
  Error : GoError
  deriving DecidableEq

/-- FileDetails is a representation of the details of a file. -/
structure FileDetails where
  UploadKey : String
  FileName : String
  Data : List Nat
  ContentType : String
  deriving DecidableEq

/-- FileWithBodyResult is a representation of the result of extracting both text and file
uploads from a request. -/
structure FileWithBodyResult where
  Files : List FileDetails
  Body : List (String × List String)
  deriving DecidableEq

/-- A method call received by an `http.ResponseWriter`. -/
inductive Call where
  | setHeader (key value : String)
  | writeHeader (statusCode : Nat)
  | write (data : String)
  deriving DecidableEq

/-- What a handler has done so far: the calls its `http.ResponseWriter` received and the
lines handed to the process-wide logger, oldest first. -/
structure Output where
  calls : List Call
  log : List String
  deriving DecidableEq

/-- `w.Header().Set(key, value)`. -/
def Output.Set (out : Output) (key value : String) : Output :=
  { out with calls := out.calls ++ [.setHeader key value] }

/-- `w.WriteHeader(statusCode)`. -/
def Output.WriteHeader (out : Output) (statusCode : Nat) : Output :=
  { out with calls := out.calls ++ [.writeHeader statusCode] }

/-- `w.Write(data)`. -/
def Output.Write (out : Output) (data : String) : Output :=
  { out with calls := out.calls ++ [.write data] }

/-- `log.Println` of a text and an error: the operands separated by a blank. -/
def Output.Println (out : Output) (text : String) (err : GoError) : Output :=
  { out with log := out.log ++ [text ++ " " ++ err.Error] }

/-- Every status code handed to `WriteHeader`, in call order. -/
def statusCodes : List Call → List Nat
  | [] => []
  | .writeHeader c :: rest => c :: statusCodes rest
  | _ :: rest => statusCodes rest

/-- The status line `net/http` sends: that of the first `WriteHeader`, or 200 when a
`Write` comes first; later `WriteHeader` calls are ignored. -/
def sentStatus : List Call → Option Nat
  | [] => none
  | .writeHeader c :: _ => some c
  | .write _ :: _ => some 200
  | .setHeader _ _ :: rest => sentStatus rest

/-- The response body: everything handed to `Write`, in call order. -/
def sentBody : List Call → String
  | [] => ""
  | .write d :: rest => d ++ sentBody rest
  | _ :: rest => sentBody rest

def setStandardHeaders (w : Output) : Output :=
  ((((w.Set "Access-Control-Allow-Headers" "Content-Type").Set
    "Access-Control-Allow-Methods" "OPTIONS,POST,GET").Set
    "Access-Control-Allow-Origin" "*").Set
    "Content-Type" "application/json").Set
    "X-Content-Type-Options" "nosniff"

/-- NewSuccessResponse creates a new success response. -/
def NewSuccessResponse (d : Value) : GenericResponse :=
  { Status := successMessage, Data := d, Error := .nil }

/-- NewErrorResponse creates a new error response. -/
def NewErrorResponse (err : GoError) : GenericResponse :=
  { Status := failureMessage, Data := .null, Error := err }

end httputils

namespace json

open commonerror httputils

/-- JSON text of the error held in the `error` field of a response. -/
def encodeError : GoError → Except GoError String
  | .nil => .ok "null"
  | .api e => e.marshal
  | .foreign _ enc => .ok enc
  | .causer _ enc _ => .ok enc

/-- `json.Marshal` of a `GenericResponse`: every field is `omitempty`; the result is the
bytes and a nil error, or no bytes and the error. -/
def Marshal (res : GenericResponse) : String × GoError :=
  let status := if res.Status = "" then [] else ["\"status\":" ++ json.encodeString res.Status]
  match (if res.Data = .null then Except.ok [] else
          (res.Data.encode).map fun d => ["\"data\":" ++ d]) with
  | .error err => ("", err)
  | .ok data =>
    match (if res.Error = .nil then Except.ok [] else
            (encodeError res.Error).map fun e => ["\"error\":" ++ e]) with
    | .error err => ("", err)
    | .ok error => ("\x7b" ++ ",".intercalate (status ++ data ++ error) ++ "\x7d", .nil)

end json

namespace httputils

open commonerror

/-- ServeInternalError serves an internal server error.  The serializer is an argument
(the source calls `json.Marshal`); `fuel` bounds the self-calls. -/
def serveInternalError (marshal : GenericResponse → String × GoError) :
    Nat → GoError → Output → Option Output
  | 0, _, _ => none
  | fuel + 1, err, w =>
    let w := w.Println "Error is: " err
    let errDTO : Error :=
      { Code := "Internal server error", Message := "Something unplanned for has gone wrong",
        Params := [] }
    let res := NewErrorResponse (.api errDTO)
    let (bb, err) := marshal res
    let after := if err ≠ .nil then serveInternalError marshal fuel err w else some w
    after.map fun w =>
      ((setStandardHeaders w).WriteHeader StatusInternalServerError).Write bb

/-- ServeBadRequestError serves a bad request error. -/
def serveBadRequestError (marshal : GenericResponse → String × GoError) :
    Nat → GoError → Output → Option Output
  | 0, _, _ => none
  | fuel + 1, err, w =>
    let w := w.Println "Error is: " err
    let errDTO : Error :=
      match err with
      | .api e => e
      | _ => { Code := "", Message := err.Error, Params := [] }
    let res := NewErrorResponse (.api errDTO)
    let (bb, err) := marshal res
    let after := if err ≠ .nil then serveBadRequestError marshal fuel err w else some w
    after.map fun w =>
      ((setStandardHeaders w).WriteHeader StatusBadRequest).Write bb

/-- Served when user did not provide authorization. -/
def serveUnauthorizedResponse (marshal : GenericResponse → String × GoError)
    (fuel : Nat) (err : GoError) (w : Output) : Option Output :=
  let w := w.Println "Error is: " err
  let res := NewErrorResponse err
  let (bb, err) := marshal res
  let after := if err ≠ .nil then serveInternalError marshal fuel err w else some w
  after.map fun w =>
    ((setStandardHeaders w).WriteHeader StatusUnauthorized).Write bb

/-- Served when user passed in authentication but they are invalid. -/
def serveAuthenticationErrResponse (marshal : GenericResponse → String × GoError)
    (fuel : Nat) (err : GoError) (w : Output) : Option Output :=
  let w := w.Println "Error is : " err
  let res := NewErrorResponse err
  let (bb, err) := marshal res
  let after := if err ≠ .nil then serveInternalError marshal fuel err w else some w
  after.map fun w =>
    ((setStandardHeaders w).WriteHeader StatusForbidden).Write bb

/-- ServeError is a generic error function that serves a custom error depending on
params. -/
def ServeError (marshal : GenericResponse → String × GoError)
    (fuel : Nat) (err : GoError) (w : Output) : Option Output :=
  if IsBadRequestError err then serveBadRequestError marshal fuel err w
  else if IsUnathourizedError err then serveUnauthorizedResponse marshal fuel err w
  else if IsUnAuthenticatedError err then serveAuthenticationErrResponse marshal fuel err w
  else serveInternalError marshal fuel err w

/-- A file part of a parsed multipart form (`multipart.FileHeader`), with what opening
and reading it yields. -/
structure FileHeader where
  Filename : String
  /-- The `Content-Type` header the part carried. -/
  ContentType : String
  /-- The error of `Open()`. -/
  openErr : GoError
  /-- The bytes `ioutil.ReadAll` delivers for the opened file. -/
  content : List Nat
  /-- The error of `ioutil.ReadAll`. -/
  readErr : GoError
  deriving DecidableEq

/-- A parsed multipart form (`multipart.Form`): for each field name the values, and for
each field name the file parts, in arrival order. -/
structure Form where
  Value : List (String × List String)
  File : List (String × List FileHeader)
  deriving DecidableEq

/-- What the decoders read of an `http.Request`. -/
structure Request where
  /-- The bytes of the body. -/
  Body : String
  /-- The path parameters the router stored in the request context. -/
  Params : List (String × String)
  /-- The error of `ParseMultipartForm`. -/
  parseErr : GoError
  /-- The form `ParseMultipartForm` leaves in `r.MultipartForm`. -/
  MultipartForm : Form
  deriving DecidableEq

/-- Go map lookup `m[key]` for a map to slices: the nil slice when the key is absent. -/
def index {α : Type} (m : List (String × List α)) (key : String) : List α :=
  match m with
  | [] => []
  | (k, v) :: rest => if k = key then v else index rest key

/-- Go map assignment `m[key] = v`. -/
def assign {α : Type} (m : List (String × α)) (key : String) (v : α) : List (String × α) :=
  match m with
  | [] => [(key, v)]
  | (k, x) :: rest => if k = key then (key, v) :: rest else (k, x) :: assign rest key v

/-- Whether a Go map has an entry for `key`, and which. -/
def entry {α : Type} (m : List (String × α)) (key : String) : Option α :=
  match m with
  | [] => none
  | (k, v) :: rest => if k = key then some v else entry rest key

/-- `ByName` of `httprouter.Params`: the value of the first parameter with that key, the
empty string when there is none. -/
def ByName (ps : List (String × String)) (name : String) : String :=
  match ps with
  | [] => ""
  | (k, v) :: rest => if k = name then v else ByName rest name

/-- `io.EOF`. -/
def EOF : GoError := .foreign "EOF" "\x7b\x7d"

/-- JSONToDTO decodes a request body into a Data Transfer Object.  `Decode` is
`json.NewDecoder(r.Body).Decode(&DTO)` for the DTO at hand, as a function of the body. -/
def JSONToDTO (Decode : String → GoError) (r : Request) : GoError :=
  let err := Decode r.Body
  if err ≠ .nil ∧ err.Error = noReqBody then
    .api (ErrorParams.ToBadRequest (NewErrorParams "error" "No request body was passed"))
  else err

def readFile (file : FileHeader) : List Nat × GoError :=
  let (fileBytes, err) := (file.content, file.readErr)
  if err ≠ .nil then ([], Wrap err "Unable to read file content")
  else (fileBytes, .nil)

/-- GetFileContentType returns the file content.  `DetectReader` is
`mimetype.DetectReader` followed by `String()`, as a function of the bytes read. -/
def GetFileContentType (DetectReader : List Nat → String) (r : List Nat) : String :=
  DetectReader r

/-- The inner loop of `ExtractMultipleFileUploads`: the parts posted under one key. -/
def extractParts (DetectReader : List Nat → String) (uploadKey : String) :
    List FileHeader → List FileDetails → List FileDetails × GoError
  | [], fd => (fd, .nil)
  | fileHeader :: rest, fd =>
    if fileHeader.openErr ≠ .nil then
      ([], Wrap fileHeader.openErr ("Unable to open file " ++ fileHeader.Filename))
    else
      let (byteSlice, err) := readFile fileHeader
      if err ≠ .nil then ([], Wrap err "Unable to read file")
      else
        let contentType := GetFileContentType DetectReader byteSlice
        let r : FileDetails :=
          { UploadKey := uploadKey, FileName := fileHeader.Filename, Data := byteSlice,
            ContentType := contentType }
        extractParts DetectReader uploadKey rest (fd ++ [r])

/-- The outer loop of `ExtractMultipleFileUploads`: the requested keys in order. -/
def extractKeys (DetectReader : List Nat → String) (form : Form) :
    List String → List FileDetails → List FileDetails × GoError
  | [], fd => (fd, .nil)
  | uploadKey :: rest, fd =>
    let (fd, err) := extractParts DetectReader uploadKey (index form.File uploadKey) fd
    if err ≠ .nil then ([], err) else extractKeys DetectReader form rest fd

/-- ExtractMultipleFileUploads extracts multiple uploaded files from the request body. -/
def ExtractMultipleFileUploads (DetectReader : List Nat → String) (r : Request)
    (uploadKeys : List String) : List FileDetails × GoError :=
  if r.parseErr ≠ .nil then ([], r.parseErr)
  else extractKeys DetectReader r.MultipartForm uploadKeys []

/-- The text loop of `ExtractBodyAndFileUploads`. -/
def collectText (form : Form) :
    List String → List (String × List String) → List (String × List String)
  | [], textResult => textResult
  | textKey :: rest, textResult =>
    let v := index form.Value textKey
    collectText form rest (assign textResult textKey v)

/-- The inner file loop of `ExtractBodyAndFileUploads`. -/
def bodyFileParts (DetectReader : List Nat → String) (fileUploadKey : String) :
    List FileHeader → List FileDetails → List FileDetails × GoError
  | [], fd => (fd, .nil)
  | fileHeader :: rest, fd =>
    if fileHeader.openErr ≠ .nil then
      ([], Wrap fileHeader.openErr ("Unable to open file " ++ fileHeader.Filename))
    else
      let (byteSlice, err) := readFile fileHeader
      if err ≠ .nil then ([], Wrap err "Unable to read file")
      else
        let contentType := GetFileContentType DetectReader byteSlice
        let r : FileDetails :=
          { UploadKey := fileUploadKey, FileName := fileHeader.Filename, Data := byteSlice,
            ContentType := contentType }
        bodyFileParts DetectReader fileUploadKey rest (fd ++ [r])

/-- The outer file loop of `ExtractBodyAndFileUploads`. -/
def bodyFileKeys (DetectReader : List Nat → String) (form : Form) :
    List String → List FileDetails → List FileDetails × GoError
  | [], fd => (fd, .nil)
  | fileUploadKey :: rest, fd =>
    let (fd, err) := bodyFileParts DetectReader fileUploadKey (index form.File fileUploadKey) fd
    if err ≠ .nil then ([], err) else bodyFileKeys DetectReader form rest fd

/-- ExtractBodyAndFileUploads extracts both text and file uploads in a request body. -/
def ExtractBodyAndFileUploads (DetectReader : List Nat → String) (r : Request)
    (fileUploadKeys : List String) (textKeys : List String) : FileWithBodyResult × GoError :=
  if r.parseErr ≠ .nil then ({ Files := [], Body := [] }, r.parseErr)
  else
    let textResult := collectText r.MultipartForm textKeys []
    let (fd, err) := bodyFileKeys DetectReader r.MultipartForm fileUploadKeys []
    if err ≠ .nil then ({ Files := [], Body := [] }, err)
    else ({ Files := fd, Body := textResult }, .nil)

/-- RetrieveUUIDResource retrieves a resource of type uuid from an incoming request. -/
def RetrieveUUIDResource (r : Request) (idKey : String) : uuid.V4 × GoError :=
  let id := ByName r.Params idKey
  if id = "" then
    ("", .api (ErrorParams.ToBadRequest
      (NewErrorParams idKey (idKey ++ " not found in request"))))
  else
    let (uID, err) := uuid.GenFromString id
    if err ≠ .nil then
      ("", .api (ErrorParams.ToBadRequest
        (NewErrorParams idKey "Invalid ID. Expected type UUID")))
    else (uID, .nil)

/-- The file parts the spec expects for one key: one `FileDetails` per part, in arrival
order. -/
def detailsOf (DetectReader : List Nat → String) (form : Form) (key : String) :
    List FileDetails :=
  (index form.File key).map fun h =>
    { UploadKey := key, FileName := h.Filename, Data := h.content,
      ContentType := DetectReader h.content }

/-- Every part posted under the requested keys opens and reads. -/
def allReadable (form : Form) (keys : List String) : Prop :=
  ∀ key ∈ keys, ∀ h ∈ index form.File key, h.openErr = .nil ∧ h.readErr = .nil

/-- The data handed to `Write`, one entry per call, in call order. -/
def writes : List Call → List String
  | [] => []
  | .write d :: rest => d :: writes rest
  | _ :: rest => writes rest

/-- The calls `setStandardHeaders` makes. -/
def standardHeaders : List Call :=
  [.setHeader "Access-Control-Allow-Headers" "Content-Type",
   .setHeader "Access-Control-Allow-Methods" "OPTIONS,POST,GET",
   .setHeader "Access-Control-Allow-Origin" "*",
   .setHeader "Content-Type" "application/json",
   .setHeader "X-Content-Type-Options" "nosniff"]

/-- The body of every internal-server-error response. -/
def internalErrorBody : String :=
  "\x7b\"status\":\"error\",\"error\":\x7b\"code\":\"Internal server error\",\"message\":\"Something unplanned for has gone wrong\"\x7d\x7d"

end httputils

/-! ## Package `time` of the Go library: the part `ctime` relies on -/

namespace time

open commonerror

/-- A Go `time.Time`: the calendar reading of the instant in the location of the value,
and the offset of that location in seconds east of UTC.  Every Go time has a month in
1..12, a day in 1..`daysIn`, and clock fields in range (see `Time.wellFormed`). -/
structure Time where
  year : Int
  month : Nat
  day : Nat
  hour : Nat
  minute : Nat
  second : Nat
  nanosecond : Nat
  offset : Int
  deriving DecidableEq

/-- Function `isLeap` of package `time`. -/
def isLeap (year : Int) : Bool :=
  year % 4 == 0 && (year % 100 != 0 || year % 400 == 0)

/-- Function `daysIn` of package `time`. -/
def daysIn (month : Nat) (year : Int) : Nat :=
  if month = 2 then (if isLeap year then 29 else 28)
  else if month = 4 ∨ month = 6 ∨ month = 9 ∨ month = 11 then 30
  else 31

/-- The fields of a Go time are those of a real calendar date and clock reading. -/
def Time.wellFormed (t : Time) : Prop :=
  1 ≤ t.month ∧ t.month ≤ 12 ∧ 1 ≤ t.day ∧ t.day ≤ daysIn t.month t.year
    ∧ t.hour < 24 ∧ t.minute < 60 ∧ t.second < 60 ∧ t.nanosecond < 1000000000

/-- The zero `time.Time`. -/
def zeroTime : Time :=
  { year := 1, month := 1, day := 1, hour := 0, minute := 0, second := 0, nanosecond := 0,
    offset := 0 }

/-- The character of a decimal digit. -/
def digitChar (n : Nat) : Char := Char.ofNat (48 + n)

/-- Decimal digits of a number, most significant first; `fuel` bounds their count. -/
def decimalAux : Nat → Nat → List Char
  | 0, _ => []
  | fuel + 1, n =>
    if n < 10 then [digitChar n] else decimalAux fuel (n / 10) ++ [digitChar (n % 10)]

/-- Function `appendInt` of package `time`: the decimal form of `x`, zero-padded to
`width` digits, after a minus sign when negative.  A 64-bit value has at most 20
digits. -/
def appendInt (x : Int) (width : Nat) : List Char :=
  let digits := decimalAux 20 x.natAbs
  (if x < 0 then [Char.ofNat 45] else []) ++ List.replicate (width - digits.length) (Char.ofNat 48)
    ++ digits

/-- Layout `2006-01-02` of `Time.Format`. -/
def formatDate (t : Time) : List Char :=
  appendInt t.year 4 ++ [Char.ofNat 45] ++ appendInt t.month 2 ++ [Char.ofNat 45]
    ++ appendInt t.day 2

/-- Layout `2006-01-02T15:04:05.000Z` of `Time.Format`: the fraction is the first three
of the nine nanosecond digits, `T` and `Z` are literal. -/
def formatFull (t : Time) : List Char :=
  formatDate t ++ [Char.ofNat 84] ++ appendInt t.hour 2 ++ [Char.ofNat 58]
    ++ appendInt t.minute 2 ++ [Char.ofNat 58] ++ appendInt t.second 2 ++ [Char.ofNat 46]
    ++ appendInt (t.nanosecond / 1000000 % 1000) 3 ++ [Char.ofNat 90]

def isDigit (c : Char) : Bool := 48 ≤ c.toNat && c.toNat ≤ 57

def digitVal (c : Char) : Nat := c.toNat - 48

/-- Function `leadingInt` of package `time` on a string of digits only. -/
def digitsValue : List Char → Nat → Option Nat
  | [], acc => some acc
  | c :: rest, acc => if isDigit c then digitsValue rest (acc * 10 + digitVal c) else none

/-- Function `atoi` of package `time`: an optional sign, then digits only. -/
def atoi (s : List Char) : Option Int :=
  match s with
  | c :: rest =>
    if c.toNat = 45 then (digitsValue rest 0).map fun n => -(n : Int)
    else if c.toNat = 43 then (digitsValue rest 0).map fun n => (n : Int)
    else (digitsValue s 0).map fun n => (n : Int)
  | [] => some 0

/-- Function `getnum` of package `time`: one or two digits, exactly two when `fixed`. -/
def getnum (s : List Char) (fixed : Bool) : Option (Nat × List Char) :=
  match s with
  | [] => none
  | [c0] => if !isDigit c0 then none else if fixed then none else some (digitVal c0, [])
  | c0 :: c1 :: rest =>
    if !isDigit c0 then none
    else if !isDigit c1 then (if fixed then none else some (digitVal c0, c1 :: rest))
    else some (digitVal c0 * 10 + digitVal c1, rest)

/-- Function `skip` of package `time` for one literal character that is not a blank. -/
def skip (value : List Char) (c : Nat) : Option (List Char) :=
  match value with
  | [] => none
  | v :: rest => if v.toNat = c then some rest else none

/-- The elements `2006-01-02` of a layout in `time.Parse`: year, month and day read, and
the rest of the value. -/
def parseDateElems (value : List Char) : Option (Int × Nat × Nat × List Char) :=
  if value.length < 4 ∨ !isDigit (value.getD 0 (Char.ofNat 0)) then none
  else
    match atoi (value.take 4) with
    | none => none
    | some year =>
      match skip (value.drop 4) 45 with
      | none => none
      | some value =>
        match getnum value true with
        | none => none
        | some (month, value) =>
          if month = 0 ∨ 12 < month then none
          else
            match skip value 45 with
            | none => none
            | some value =>
              match getnum value true with
              | none => none
              | some (day, value) => some (year, month, day, value)

/-- The `*time.ParseError` of a value that does not fit the layout.  The callers test it
against nil only, so its text is shortened. -/
def parseError : GoError := .foreign "parsing time: cannot parse" "\x7b\x7d"

/-- `time.Parse("2006-01-02", value)`: the time at midnight UTC of the date. -/
def ParseDate (value : String) : Time × GoError :=
  match parseDateElems value.data with
  | none => (zeroTime, parseError)
  | some (year, month, day, rest) =>
    if rest.length ≠ 0 then (zeroTime, parseError)
    else if day < 1 ∨ day > daysIn month year then (zeroTime, parseError)
    else
      ({ year := year, month := month, day := day, hour := 0, minute := 0, second := 0,
         nanosecond := 0, offset := 0 }, .nil)

/-- The elements `T15:04:05.000Z` of a layout in `time.Parse`: hour, minute, second and
nanosecond read, and the rest of the value.  The fraction follows a period or a comma. -/
def parseClockElems (value : List Char) : Option (Nat × Nat × Nat × Nat × List Char) :=
  match skip value 84 with
  | none => none
  | some value =>
    match getnum value false with
    | none => none
    | some (hour, value) =>
      if 24 ≤ hour then none
      else
        match skip value 58 with
        | none => none
        | some value =>
          match getnum value true with
          | none => none
          | some (min, value) =>
            if 60 ≤ min then none
            else
              match skip value 58 with
              | none => none
              | some value =>
                match getnum value true with
                | none => none
                | some (sec, value) =>
                  if 60 ≤ sec then none
                  else if value.length < 4
                      ∨ ((value.getD 0 (Char.ofNat 0)).toNat ≠ 46
                          ∧ (value.getD 0 (Char.ofNat 0)).toNat ≠ 44) then none
                  else
                    match atoi ((value.drop 1).take 3) with
                    | none => none
                    | some ns =>
                      if ns < 0 then none
                      else
                        match skip (value.drop 4) 90 with
                        | none => none
                        | some value => some (hour, min, sec, ns.toNat * 1000000, value)

/-- `time.Parse("2006-01-02T15:04:05.000Z", value)`. -/
def ParseFull (value : String) : Time × GoError :=
  match parseDateElems value.data with
  | none => (zeroTime, parseError)
  | some (year, month, day, rest) =>
    match parseClockElems rest with
    | none => (zeroTime, parseError)
    | some (hour, min, sec, nsec, rest) =>
      if rest.length ≠ 0 then (zeroTime, parseError)
      else if day < 1 ∨ day > daysIn month year then (zeroTime, parseError)
      else
        ({ year := year, month := month, day := day, hour := hour, minute := min,
           second := sec, nanosecond := nsec, offset := 0 }, .nil)

end time

/-! ## Package `ctime` -/

namespace ctime

open commonerror

/-- ISO8601 is an ISO-8601 formatted time. -/
structure ISO8601 where
  time : time.Time
  deriving DecidableEq

/-- The error of `NewISO8601` and `New`. -/
def formatError : GoError :=
  .foreign ("time - unable to parse value. Format should be either :2006-01-02"
    ++ " or 2006-01-02T15:04:05.000Z ") "\x7b\x7d"

/-- NewISO8601 creates a new ISO8601 time. -/
def NewISO8601 (v : String) : ISO8601 × GoError :=
  let (t, err) := time.ParseDate v
  if err ≠ .nil then
    let (t, err) := time.ParseFull v
    if err ≠ .nil then ({ time := time.zeroTime }, formatError)
    else ({ time := t }, .nil)
  else ({ time := t }, .nil)

/-- New creates an ISO8601 from a Go Time. -/
def New (t : time.Time) : ISO8601 × GoError :=
  let (isoTime, err) := NewISO8601 (String.mk (time.formatDate t))
  if err ≠ .nil then
    let (isoTime, err) := NewISO8601 (String.mk (time.formatFull t))
    if err ≠ .nil then ({ time := time.zeroTime }, formatError)
    else (isoTime, .nil)
  else (isoTime, .nil)

/-- DateString returns the date string value of an ISO8601 time. -/
def ISO8601.DateString (t : ISO8601) : String :=
  String.mk (time.formatDate t.time)

/-- String returns the string value of an ISO8601 time.  The output has 3 fractional
seconds values and terminates with a Z. -/
def ISO8601.String (t : ISO8601) : String :=
  String.mk (time.formatFull t.time)

end ctime

/-! ## Theorems: classification of errors -/

namespace commonerror

theorem Cause_Wrap (err : GoError) (message : String) : Cause (Wrap err message) = Cause err := by
  unfold Wrap
  split
  · next h => rw [h]
  · simp [Cause]

theorem Cause_wrapAll (messages : List String) (err : GoError) :
    Cause (wrapAll err messages) = Cause err := by
  induction messages generalizing err with
  | nil => rfl
  | cons m ms ih =>
    show Cause (wrapAll (Wrap err m) ms) = Cause err
    rw [ih, Cause_Wrap]

theorem codes_differ : invalidReqBodyErrCode ≠ serverErrCode := by decide

theorem messages_differ : unauthErrMsg ≠ authenticationErrMsg := by decide

/-- C1: for every params value `p`, each predicate holds of the result of its own
constructor: `IsBadRequestError(BadRequestError(p))`,
`IsUnathourizedError(UnauthorizedError(p))`, `IsUnAuthenticatedError(UnAuthenticatedError(p))`
and `IsServerError(ServerError(p))` are all true. -/
theorem predicate_holds_of_own_constructor (p : ErrorParams) :
    IsBadRequestError (.api (BadRequestError p)) = true
      ∧ IsUnathourizedError (.api (UnauthorizedError p)) = true
      ∧ IsUnAuthenticatedError (.api (UnAuthenticatedError p)) = true
      ∧ IsServerError (.api (ServerError p)) = true := by
  simp [IsBadRequestError, IsUnathourizedError, IsUnAuthenticatedError, IsServerError, Cause,
    BadRequestError, UnauthorizedError, UnAuthenticatedError, ServerError]

/-- C2, as stated, fails: the error `Error{Code: "invalid request body", Message: "other"}`
equals `BadRequestError(p)` for no `p` (it does not carry the BadRequest message), yet
`IsBadRequestError` is true of it. -/
theorem isBadRequest_true_off_constructor :
    (∀ p : ErrorParams,
        Cause (.api { Code := "invalid request body", Message := "other", Params := [] })
          ≠ .api (BadRequestError p))
      ∧ IsBadRequestError
          (.api { Code := "invalid request body", Message := "other", Params := [] }) = true := by
  refine ⟨?_, by decide⟩
  intro p h
  simp [Cause, BadRequestError, invalidReqBodyErrMesssage] at h

/-- C2, amended: `IsBadRequestError(x)` is false exactly when the root cause of `x` is not
an `Error` value whose code is the BadRequest code; the message plays no part. -/
theorem isBadRequest_false_iff (x : GoError) :
    IsBadRequestError x = false
      ↔ ∀ e : Error, Cause x = .api e → e.Code ≠ invalidReqBodyErrCode := by
  unfold IsBadRequestError
  cases h : Cause x <;> simp

/-- C3, as stated, fails: an `Error` with the BadRequest code and the Unauthorized message
satisfies both `IsBadRequestError` and `IsUnathourizedError`. -/
theorem predicates_overlap :
    IsBadRequestError
        (.api { Code := "invalid request body",
                Message := "Authentication details were not provided", Params := [] }) = true
      ∧ IsUnathourizedError
        (.api { Code := "invalid request body",
                Message := "Authentication details were not provided", Params := [] }) = true := by
  decide

/-- C3, amended: at most one of the four predicates holds of an error exactly when its
root cause is not an `Error` value that joins one of the two well-known codes (BadRequest,
ServerError) with one of the two well-known messages (Unauthorized, Unauthenticated); and
of every error built by one of the four constructors, wrapped or not, exactly one holds. -/
theorem at_most_one_predicate_iff (e : GoError) :
    (classCount e ≤ 1
        ↔ ¬ ∃ a : Error, Cause e = .api a
            ∧ (a.Code = invalidReqBodyErrCode ∨ a.Code = serverErrCode)
            ∧ (a.Message = unauthErrMsg ∨ a.Message = authenticationErrMsg))
      ∧ ∀ (p : ErrorParams) (messages : List String),
          classCount (wrapAll (.api (BadRequestError p)) messages) = 1
            ∧ classCount (wrapAll (.api (UnauthorizedError p)) messages) = 1
            ∧ classCount (wrapAll (.api (UnAuthenticatedError p)) messages) = 1
            ∧ classCount (wrapAll (.api (ServerError p)) messages) = 1 := by
  constructor
  · unfold classCount IsBadRequestError IsUnathourizedError IsUnAuthenticatedError IsServerError
    cases h : Cause e with
    | api a =>
      have hc := codes_differ
      have hm := messages_differ
      by_cases h1 : a.Code = invalidReqBodyErrCode <;>
        by_cases h2 : a.Code = serverErrCode <;>
        by_cases h3 : a.Message = unauthErrMsg <;>
        by_cases h4 : a.Message = authenticationErrMsg <;>
        simp_all
    | _ => simp
  · intro p messages
    unfold classCount IsBadRequestError IsUnathourizedError IsUnAuthenticatedError IsServerError
    simp only [Cause_wrapAll]
    simp [Cause, BadRequestError, UnauthorizedError, UnAuthenticatedError, ServerError,
      invalidReqBodyErrCode, invalidReqBodyErrMesssage, serverErrCode, serverErrMessage,
      unauthErrMsg, authenticationErrMsg]

/-- C4: wrapping is transparent to classification: for every error `e` and every list of
context messages, each of the four predicates gives the same answer on `e` wrapped with
those messages (any number of nested `Wrap` calls) as on `e` itself. -/
theorem wrapping_is_transparent (e : GoError) (messages : List String) :
    IsBadRequestError (wrapAll e messages) = IsBadRequestError e
      ∧ IsUnathourizedError (wrapAll e messages) = IsUnathourizedError e
      ∧ IsUnAuthenticatedError (wrapAll e messages) = IsUnAuthenticatedError e
      ∧ IsServerError (wrapAll e messages) = IsServerError e := by
  simp [IsBadRequestError, IsUnathourizedError, IsUnAuthenticatedError, IsServerError,
    Cause_wrapAll]

end commonerror

/-! ## Theorems: the error writers -/

namespace httputils

open commonerror

theorem statusCodes_append (xs ys : List Call) :
    statusCodes (xs ++ ys) = statusCodes xs ++ statusCodes ys := by
  induction xs with
  | nil => rfl
  | cons x xs ih => cases x <;> simp [statusCodes, ih]

theorem sentBody_append (xs ys : List Call) :
    sentBody (xs ++ ys) = sentBody xs ++ sentBody ys := by
  induction xs with
  | nil => simp [sentBody]
  | cons x xs ih => cases x <;> simp [sentBody, ih, String.append_assoc]

theorem calls_of_reply (w : Output) (code : Nat) (bb : String) :
    (((setStandardHeaders w).WriteHeader code).Write bb).calls
      = w.calls ++ (standardHeaders ++ [.writeHeader code, .write bb]) := by
  simp [setStandardHeaders, standardHeaders, Output.Set, Output.WriteHeader, Output.Write]

theorem log_of_reply (w : Output) (code : Nat) (bb : String) :
    (((setStandardHeaders w).WriteHeader code).Write bb).log = w.log := by
  simp [setStandardHeaders, Output.Set, Output.WriteHeader, Output.Write]

theorem statusCodes_reply (code : Nat) (bb : String) :
    statusCodes (standardHeaders ++ [.writeHeader code, .write bb]) = [code] := by
  simp [standardHeaders, statusCodes]

theorem sentStatus_reply (code : Nat) (bb : String) (more : List Call) :
    sentStatus ((standardHeaders ++ [.writeHeader code, .write bb]) ++ more) = some code := by
  simp [standardHeaders, sentStatus]

theorem sentBody_reply (code : Nat) (bb : String) :
    sentBody (standardHeaders ++ [.writeHeader code, .write bb]) = bb := by
  simp [standardHeaders, sentBody]

theorem marshal_static :
    json.Marshal (NewErrorResponse (.api
        { Code := "Internal server error", Message := "Something unplanned for has gone wrong",
          Params := [] }))
      = (internalErrorBody, .nil) := by
  decide

theorem encodeEntries_error (ps : ErrorParams) (e : GoError)
    (h : encodeEntries ps = .error e) : ∃ t, e = unsupportedTypeError t := by
  induction ps with
  | nil => simp [encodeEntries] at h
  | cons kv rest ih =>
    obtain ⟨k, v⟩ := kv
    unfold encodeEntries at h
    cases v <;> simp only [Value.encode] at h
    case unsupported t => exact ⟨t, by injection h with h; exact h.symm⟩
    all_goals
      cases hr : encodeEntries rest with
      | error e2 => rw [hr] at h; injection h with h; subst h; exact ih hr
      | ok er => rw [hr] at h; simp at h

theorem marshal_error_cases (err : GoError) :
    (json.Marshal (NewErrorResponse err)).2 = .nil
      ∨ ∃ t, json.Marshal (NewErrorResponse err) = ("", unsupportedTypeError t) := by
  cases err with
  | nil => left; simp [json.Marshal, NewErrorResponse]
  | foreign m enc => left; simp [json.Marshal, NewErrorResponse, json.encodeError, Except.map]
  | causer m enc c => left; simp [json.Marshal, NewErrorResponse, json.encodeError, Except.map]
  | api e =>
    cases hp : encodeEntries e.Params with
    | ok ps => left; simp [json.Marshal, NewErrorResponse, json.encodeError, Error.marshal, hp, Except.map]
    | error e2 =>
      right
      obtain ⟨t, ht⟩ := encodeEntries_error _ _ hp
      exact ⟨t, by simp [json.Marshal, NewErrorResponse, json.encodeError, Error.marshal, hp, Except.map, ht]⟩

/-- With `json.Marshal` the internal-error writer returns at once: the static envelope
always serializes. -/
theorem serveInternalError_run (fuel : Nat) (err : GoError) (w : Output) :
    serveInternalError json.Marshal (fuel + 1) err w
      = some (((setStandardHeaders (w.Println "Error is: " err)).WriteHeader
          StatusInternalServerError).Write internalErrorBody) := by
  simp [serveInternalError, marshal_static]

/-- The bad-request writer when the envelope of its error serializes. -/
theorem serveBadRequestError_ok (fuel : Nat) (err : GoError) (w : Output) (dto : Error)
    (hdto : dto = match err with
      | .api e => e
      | _ => { Code := "", Message := err.Error, Params := [] })
    (h : (json.Marshal (NewErrorResponse (.api dto))).2 = .nil) :
    serveBadRequestError json.Marshal (fuel + 1) err w
      = some (((setStandardHeaders (w.Println "Error is: " err)).WriteHeader
          StatusBadRequest).Write (json.Marshal (NewErrorResponse (.api dto))).1) := by
  subst hdto
  simp only [serveBadRequestError]
  simp [h]

theorem marshal_message_only (m : String) :
    (json.Marshal (NewErrorResponse (.api { Code := "", Message := m, Params := [] }))).2
      = .nil := by
  simp [json.Marshal, NewErrorResponse, json.encodeError, Error.marshal, encodeEntries, Except.map]

/-- The bad-request writer when the envelope of its error does not serialize: one
self-call on the error of the serializer, whose envelope does serialize. -/
theorem serveBadRequestError_retry (fuel : Nat) (err : GoError) (w : Output) (dto : Error)
    (t : String)
    (hdto : dto = match err with
      | .api e => e
      | _ => { Code := "", Message := err.Error, Params := [] })
    (h : json.Marshal (NewErrorResponse (.api dto)) = ("", unsupportedTypeError t)) :
    serveBadRequestError json.Marshal (fuel + 2) err w
      = some (((setStandardHeaders
          (((setStandardHeaders
            ((w.Println "Error is: " err).Println "Error is: " (unsupportedTypeError t))).WriteHeader
              StatusBadRequest).Write
            (json.Marshal (NewErrorResponse (.api
              { Code := "", Message := (unsupportedTypeError t).Error, Params := [] }))).1)).WriteHeader
          StatusBadRequest).Write "") := by
  subst hdto
  have hne : unsupportedTypeError t ≠ GoError.nil := by simp [unsupportedTypeError]
  have hin := serveBadRequestError_ok fuel (unsupportedTypeError t)
    (w.Println "Error is: " err) _ rfl (marshal_message_only _)
  unfold serveBadRequestError
  simp only [h, hne, ne_eq, not_false_eq_true, if_true]
  rw [hin]
  rfl

/-- The 401 writer when the envelope of its error serializes. -/
theorem serveUnauthorizedResponse_ok (fuel : Nat) (err : GoError) (w : Output)
    (h : (json.Marshal (NewErrorResponse err)).2 = .nil) :
    serveUnauthorizedResponse json.Marshal fuel err w
      = some (((setStandardHeaders (w.Println "Error is: " err)).WriteHeader
          StatusUnauthorized).Write (json.Marshal (NewErrorResponse err)).1) := by
  simp [serveUnauthorizedResponse, h]

/-- The 401 writer when the envelope of its error does not serialize: the internal-error
writer replies first, then the 401 writer carries on. -/
theorem serveUnauthorizedResponse_fail (fuel : Nat) (err : GoError) (w : Output) (t : String)
    (h : json.Marshal (NewErrorResponse err) = ("", unsupportedTypeError t)) :
    serveUnauthorizedResponse json.Marshal (fuel + 1) err w
      = some (((setStandardHeaders
          (((setStandardHeaders
            ((w.Println "Error is: " err).Println "Error is: " (unsupportedTypeError t))).WriteHeader
              StatusInternalServerError).Write internalErrorBody)).WriteHeader
          StatusUnauthorized).Write "") := by
  have hne : unsupportedTypeError t ≠ GoError.nil := by simp [unsupportedTypeError]
  unfold serveUnauthorizedResponse
  simp only [h, hne, ne_eq, not_false_eq_true, if_true]
  rw [serveInternalError_run]
  rfl

/-- The 403 writer when the envelope of its error serializes. -/
theorem serveAuthenticationErrResponse_ok (fuel : Nat) (err : GoError) (w : Output)
    (h : (json.Marshal (NewErrorResponse err)).2 = .nil) :
    serveAuthenticationErrResponse json.Marshal fuel err w
      = some (((setStandardHeaders (w.Println "Error is : " err)).WriteHeader
          StatusForbidden).Write (json.Marshal (NewErrorResponse err)).1) := by
  simp [serveAuthenticationErrResponse, h]

/-- The 403 writer when the envelope of its error does not serialize. -/
theorem serveAuthenticationErrResponse_fail (fuel : Nat) (err : GoError) (w : Output)
    (t : String) (h : json.Marshal (NewErrorResponse err) = ("", unsupportedTypeError t)) :
    serveAuthenticationErrResponse json.Marshal (fuel + 1) err w
      = some (((setStandardHeaders
          (((setStandardHeaders
            ((w.Println "Error is : " err).Println "Error is: " (unsupportedTypeError t))).WriteHeader
              StatusInternalServerError).Write internalErrorBody)).WriteHeader
          StatusForbidden).Write "") := by
  have hne : unsupportedTypeError t ≠ GoError.nil := by simp [unsupportedTypeError]
  unfold serveAuthenticationErrResponse
  simp only [h, hne, ne_eq, not_false_eq_true, if_true]
  rw [serveInternalError_run]
  rfl

theorem calls_Println (w : Output) (text : String) (err : GoError) :
    (w.Println text err).calls = w.calls := rfl

/-- C5, as stated, fails: of `Error{Message: "Authentication details were not provided",
Params: {"c": <a channel>}}` the predicate `IsBadRequestError` is false and
`IsUnathourizedError` is true, yet `ServeError` writes status 500 first (and then 401), so
the status sent is 500, not 401. -/
theorem serveError_unauthorized_sends_500 :
    IsBadRequestError
        (.api { Code := "", Message := "Authentication details were not provided",
                Params := [("c", .unsupported "chan int")] }) = false
      ∧ IsUnathourizedError
        (.api { Code := "", Message := "Authentication details were not provided",
                Params := [("c", .unsupported "chan int")] }) = true
      ∧ (ServeError json.Marshal 2
          (.api { Code := "", Message := "Authentication details were not provided",
                  Params := [("c", .unsupported "chan int")] })
          { calls := [], log := [] }).map (fun w => (statusCodes w.calls, sentStatus w.calls))
        = some ([500, 401], some 500) := by
  decide

/-- C5, amended: `ServeError` returns, every status code it writes is 400, 401, 403 or
500, and the status sent is 400 if `IsBadRequestError(err)`; otherwise 401 if
`IsUnathourizedError(err)` and 403 if `IsUnAuthenticatedError(err)` when the envelope of
`err` serializes, and 500 when it does not; otherwise 500. -/
theorem serveError_status (fuel : Nat) (err : GoError) (w : Output) :
    ∃ (w2 : Output) (added : List Call),
      ServeError json.Marshal (fuel + 2) err w = some w2
        ∧ w2.calls = w.calls ++ added
        ∧ (∀ c ∈ statusCodes added, c = 400 ∨ c = 401 ∨ c = 403 ∨ c = 500)
        ∧ sentStatus added = some (
            if IsBadRequestError err then 400
            else if IsUnathourizedError err then
              (if (json.Marshal (NewErrorResponse err)).2 = .nil then 401 else 500)
            else if IsUnAuthenticatedError err then
              (if (json.Marshal (NewErrorResponse err)).2 = .nil then 403 else 500)
            else 500) := by
  obtain ⟨dto, hdto⟩ : ∃ dto : Error, dto = match err with
      | .api e => e
      | _ => { Code := "", Message := err.Error, Params := [] } := ⟨_, rfl⟩
  have hne : ∀ t, unsupportedTypeError t ≠ GoError.nil := by
    intro t; simp [unsupportedTypeError]
  unfold ServeError
  by_cases hb : IsBadRequestError err = true
  · simp only [hb, if_true]
    rcases marshal_error_cases (.api dto) with h | ⟨t, h⟩
    · rw [serveBadRequestError_ok (fuel + 1) err w dto hdto h]
      refine ⟨_, standardHeaders ++ [.writeHeader StatusBadRequest,
        .write (json.Marshal (NewErrorResponse (.api dto))).1], rfl, ?_, ?_, ?_⟩
      · rw [calls_of_reply, calls_Println]
      · simp [statusCodes_reply, StatusBadRequest]
      · simpa [StatusBadRequest] using sentStatus_reply 400 _ []
    · rw [serveBadRequestError_retry fuel err w dto t hdto h]
      refine ⟨_, (standardHeaders ++ [.writeHeader StatusBadRequest,
        .write (json.Marshal (NewErrorResponse (.api
          { Code := "", Message := (unsupportedTypeError t).Error, Params := [] }))).1])
        ++ (standardHeaders ++ [.writeHeader StatusBadRequest, .write ""]), rfl, ?_, ?_, ?_⟩
      · rw [calls_of_reply, calls_of_reply, calls_Println, calls_Println, List.append_assoc]
      · rw [statusCodes_append, statusCodes_reply, statusCodes_reply]
        simp [StatusBadRequest]
      · simpa [StatusBadRequest] using sentStatus_reply 400 _ _
  · have hb2 : IsBadRequestError err = false := by simpa using hb
    simp only [hb2, Bool.false_eq_true, if_false]
    by_cases hu : IsUnathourizedError err = true
    · simp only [hu, if_true]
      rcases marshal_error_cases err with h | ⟨t, h⟩
      · rw [serveUnauthorizedResponse_ok _ err w h]
        refine ⟨_, standardHeaders ++ [.writeHeader StatusUnauthorized,
          .write (json.Marshal (NewErrorResponse err)).1], rfl, ?_, ?_, ?_⟩
        · rw [calls_of_reply, calls_Println]
        · simp [statusCodes_reply, StatusUnauthorized]
        · simpa [StatusUnauthorized, h] using sentStatus_reply 401 _ []
      · rw [serveUnauthorizedResponse_fail _ err w t h]
        refine ⟨_, (standardHeaders ++ [.writeHeader StatusInternalServerError,
          .write internalErrorBody])
          ++ (standardHeaders ++ [.writeHeader StatusUnauthorized, .write ""]), rfl, ?_, ?_, ?_⟩
        · rw [calls_of_reply, calls_of_reply, calls_Println, calls_Println, List.append_assoc]
        · rw [statusCodes_append, statusCodes_reply, statusCodes_reply]
          simp [StatusUnauthorized, StatusInternalServerError]
        · simpa [StatusInternalServerError, h, hne] using sentStatus_reply 500 _ _
    · have hu2 : IsUnathourizedError err = false := by simpa using hu
      simp only [hu2, Bool.false_eq_true, if_false]
      by_cases ha : IsUnAuthenticatedError err = true
      · simp only [ha, if_true]
        rcases marshal_error_cases err with h | ⟨t, h⟩
        · rw [serveAuthenticationErrResponse_ok _ err w h]
          refine ⟨_, standardHeaders ++ [.writeHeader StatusForbidden,
            .write (json.Marshal (NewErrorResponse err)).1], rfl, ?_, ?_, ?_⟩
          · rw [calls_of_reply, calls_Println]
          · simp [statusCodes_reply, StatusForbidden]
          · simpa [StatusForbidden, h] using sentStatus_reply 403 _ []
        · rw [serveAuthenticationErrResponse_fail _ err w t h]
          refine ⟨_, (standardHeaders ++ [.writeHeader StatusInternalServerError,
            .write internalErrorBody])
            ++ (standardHeaders ++ [.writeHeader StatusForbidden, .write ""]), rfl, ?_, ?_, ?_⟩
          · rw [calls_of_reply, calls_of_reply, calls_Println, calls_Println, List.append_assoc]
          · rw [statusCodes_append, statusCodes_reply, statusCodes_reply]
            simp [StatusForbidden, StatusInternalServerError]
          · simpa [StatusInternalServerError, h, hne] using sentStatus_reply 500 _ _
      · have ha2 : IsUnAuthenticatedError err = false := by simpa using ha
        simp only [ha2, Bool.false_eq_true, if_false]
        rw [serveInternalError_run]
        refine ⟨_, standardHeaders ++ [.writeHeader StatusInternalServerError,
          .write internalErrorBody], rfl, ?_, ?_, ?_⟩
        · rw [calls_of_reply, calls_Println]
        · simp [statusCodes_reply, StatusInternalServerError]
        · simpa [StatusInternalServerError] using sentStatus_reply 500 _ []

end httputils

namespace httputils

open commonerror

/-- C6: server-error responses never disclose the original error: for every error that
`ServeError` routes to the default branch, the response is status 500 with the body
`json.Marshal` makes of `NewErrorResponse(Error{Code: "Internal server error", Message:
"Something unplanned for has gone wrong"})` with no params, a fixed text in which the error
plays no part; so any two such errors get the same body and the string form of the error
is never written to it. -/
theorem serverError_body_is_fixed (fuel : Nat) (err : GoError) (w : Output)
    (hb : IsBadRequestError err = false) (hu : IsUnathourizedError err = false)
    (ha : IsUnAuthenticatedError err = false) :
    ∃ (w2 : Output) (added : List Call),
      ServeError json.Marshal (fuel + 1) err w = some w2
        ∧ w2.calls = w.calls ++ added
        ∧ sentStatus added = some 500
        ∧ sentBody added
            = (json.Marshal (NewErrorResponse (.api
                { Code := "Internal server error",
                  Message := "Something unplanned for has gone wrong", Params := [] }))).1
        ∧ sentBody added
            = "\x7b\"status\":\"error\",\"error\":\x7b\"code\":\"Internal server error\",\"message\":\"Something unplanned for has gone wrong\"\x7d\x7d" := by
  unfold ServeError
  simp only [hb, hu, ha, Bool.false_eq_true, if_false]
  rw [serveInternalError_run]
  refine ⟨_, standardHeaders ++ [.writeHeader StatusInternalServerError,
    .write internalErrorBody], rfl, ?_, ?_, ?_, ?_⟩
  · rw [calls_of_reply, calls_Println]
  · simpa [StatusInternalServerError] using sentStatus_reply 500 internalErrorBody []
  · rw [sentBody_reply, marshal_static]
  · rw [sentBody_reply]; rfl

/-- Witness of C6 at `errors.New("db exploded")`. -/
theorem serverError_body_is_fixed_witness :
    IsBadRequestError (.foreign "db exploded" "\x7b\x7d") = false
    ∧ ∃ (w2 : Output) (added : List Call),
      ServeError json.Marshal 1 (.foreign "db exploded" "\x7b\x7d") { calls := [], log := [] }
          = some w2
        ∧ w2.calls = [] ++ added
        ∧ sentStatus added = some 500
        ∧ sentBody added
            = (json.Marshal (NewErrorResponse (.api
                { Code := "Internal server error",
                  Message := "Something unplanned for has gone wrong", Params := [] }))).1
        ∧ sentBody added
            = "\x7b\"status\":\"error\",\"error\":\x7b\"code\":\"Internal server error\",\"message\":\"Something unplanned for has gone wrong\"\x7d\x7d" :=
  ⟨by decide,
    serverError_body_is_fixed 0 (.foreign "db exploded" "\x7b\x7d") { calls := [], log := [] }
      (by decide) (by decide) (by decide)⟩

/-- C7, the code at the failing input: the path parameter
`6ba7b810-9dad-11d1-80b4-00c04fd430c8` is a version-1 UUID, not a version-4 one, and
`RetrieveUUIDResource` returns it with a nil error. -/
theorem retrieveUUID_accepts_version_1 :
    uuid.isV4Text "6ba7b810-9dad-11d1-80b4-00c04fd430c8" = false
      ∧ RetrieveUUIDResource
          { Body := "", Params := [("id", "6ba7b810-9dad-11d1-80b4-00c04fd430c8")],
            parseErr := .nil, MultipartForm := { Value := [], File := [] } } "id"
        = ("6ba7b810-9dad-11d1-80b4-00c04fd430c8", .nil) := by
  decide

/-- C10: when the decoder reports end-of-input on the request body (an error whose text
is `EOF`, as `io.EOF` for an empty body), `JSONToDTO` returns
`BadRequestError` with params `{"error": "No request body was passed"}`, of which
`IsBadRequestError` is true; this holds for every decoder, hence for every target DTO. -/
theorem jsonToDTO_end_of_input (Decode : String → GoError) (r : Request)
    (hne : Decode r.Body ≠ .nil) (heof : (Decode r.Body).Error = "EOF") :
    JSONToDTO Decode r
        = .api (BadRequestError [("error", .str "No request body was passed")])
      ∧ IsBadRequestError (JSONToDTO Decode r) = true := by
  have h : JSONToDTO Decode r
      = .api (BadRequestError [("error", .str "No request body was passed")]) := by
    simp [JSONToDTO, hne, heof, noReqBody, ErrorParams.ToBadRequest, NewErrorParams]
  refine ⟨h, ?_⟩
  rw [h]
  simp [IsBadRequestError, Cause, BadRequestError]

/-- Witness of C10 at an empty body, with a decoder that reports `io.EOF` on it. -/
theorem jsonToDTO_end_of_input_witness :
    (fun body : String => if body = "" then EOF else GoError.nil) "" ≠ GoError.nil
      ∧ JSONToDTO (fun body => if body = "" then EOF else .nil)
            { Body := "", Params := [], parseErr := .nil,
              MultipartForm := { Value := [], File := [] } }
          = .api (BadRequestError [("error", .str "No request body was passed")])
      ∧ IsBadRequestError (JSONToDTO (fun body => if body = "" then EOF else .nil)
            { Body := "", Params := [], parseErr := .nil,
              MultipartForm := { Value := [], File := [] } }) = true :=
  ⟨by decide,
    jsonToDTO_end_of_input (fun body => if body = "" then EOF else .nil)
      { Body := "", Params := [], parseErr := .nil,
        MultipartForm := { Value := [], File := [] } } (by decide) (by decide)⟩

end httputils

/-! ## Theorems: multipart extraction -/

namespace httputils

open commonerror

theorem readFile_ok (h : FileHeader) (hr : h.readErr = .nil) : readFile h = (h.content, .nil) := by
  simp [readFile, hr]

theorem extractParts_ok (DetectReader : List Nat → String) (key : String)
    (hs : List FileHeader) (fd : List FileDetails)
    (hok : ∀ h ∈ hs, h.openErr = .nil ∧ h.readErr = .nil) :
    extractParts DetectReader key hs fd
      = (fd ++ hs.map (fun h =>
          { UploadKey := key, FileName := h.Filename, Data := h.content,
            ContentType := DetectReader h.content }), .nil) := by
  induction hs generalizing fd with
  | nil => simp [extractParts]
  | cons h rest ih =>
    have h1 := hok h (List.mem_cons_self _ _)
    have h2 : ∀ x ∈ rest, x.openErr = .nil ∧ x.readErr = .nil :=
      fun x hx => hok x (List.mem_cons_of_mem _ hx)
    simp [extractParts, h1.1, readFile_ok h h1.2, ih _ h2, GetFileContentType]

theorem extractKeys_ok (DetectReader : List Nat → String) (form : Form)
    (keys : List String) (fd : List FileDetails) (hok : allReadable form keys) :
    extractKeys DetectReader form keys fd
      = (fd ++ keys.flatMap (detailsOf DetectReader form), .nil) := by
  induction keys generalizing fd with
  | nil => simp [extractKeys]
  | cons k rest ih =>
    have h1 : ∀ h ∈ index form.File k, h.openErr = .nil ∧ h.readErr = .nil :=
      hok k (List.mem_cons_self _ _)
    have h2 : allReadable form rest := fun x hx => hok x (List.mem_cons_of_mem _ hx)
    simp [extractKeys, extractParts_ok DetectReader k _ fd h1, ih _ h2, detailsOf]

theorem bodyFileParts_eq (DetectReader : List Nat → String) (key : String)
    (hs : List FileHeader) (fd : List FileDetails) :
    bodyFileParts DetectReader key hs fd = extractParts DetectReader key hs fd := by
  induction hs generalizing fd with
  | nil => rfl
  | cons h rest ih => simp only [bodyFileParts, extractParts, ih]

theorem bodyFileKeys_eq (DetectReader : List Nat → String) (form : Form)
    (keys : List String) (fd : List FileDetails) :
    bodyFileKeys DetectReader form keys fd = extractKeys DetectReader form keys fd := by
  induction keys generalizing fd with
  | nil => rfl
  | cons k rest ih => simp only [bodyFileKeys, extractKeys, ih, bodyFileParts_eq]

theorem extractParts_error (DetectReader : List Nat → String) (key : String)
    (hs : List FileHeader) (fd : List FileDetails)
    (h : (extractParts DetectReader key hs fd).2 ≠ .nil) :
    (extractParts DetectReader key hs fd).1 = [] := by
  induction hs generalizing fd with
  | nil => simp [extractParts] at h
  | cons x rest ih =>
    unfold extractParts at h ⊢
    by_cases h1 : x.openErr = .nil
    · simp only [h1, ne_eq, not_true_eq_false, if_false] at h ⊢
      by_cases h2 : (readFile x).2 = .nil
      · simp only [h2, ne_eq, not_true_eq_false, if_false] at h ⊢
        exact ih _ h
      · simp [h2]
    · simp [h1]

theorem extractKeys_error (DetectReader : List Nat → String) (form : Form)
    (keys : List String) (fd : List FileDetails)
    (h : (extractKeys DetectReader form keys fd).2 ≠ .nil) :
    (extractKeys DetectReader form keys fd).1 = [] := by
  induction keys generalizing fd with
  | nil => simp [extractKeys] at h
  | cons k rest ih =>
    unfold extractKeys at h ⊢
    by_cases h1 : (extractParts DetectReader k (index form.File k) fd).2 = .nil
    · simp only [h1, ne_eq, not_true_eq_false, if_false] at h ⊢
      exact ih _ h
    · simp [h1]

theorem entry_assign {α : Type} (m : List (String × α)) (key k : String) (v : α) :
    entry (assign m key v) k = if k = key then some v else entry m k := by
  induction m with
  | nil => simp [assign, entry, eq_comm]
  | cons kv rest ih =>
    obtain ⟨k0, x⟩ := kv
    by_cases h0 : k0 = key
    · subst h0
      by_cases hk : k = k0
      · simp [assign, entry, hk]
      · have hk2 : ¬ k0 = k := fun h => hk h.symm
        simp [assign, entry, hk, hk2]
    · by_cases hk : k0 = k
      · subst hk
        simp [assign, entry, h0, ih]
      · simp [assign, entry, h0, hk, ih]

theorem keys_assign {α : Type} (m : List (String × α)) (key : String) (v : α) :
    (assign m key v).map Prod.fst
      = if key ∈ m.map Prod.fst then m.map Prod.fst else m.map Prod.fst ++ [key] := by
  induction m with
  | nil => simp [assign]
  | cons kv rest ih =>
    obtain ⟨k0, x⟩ := kv
    by_cases h0 : k0 = key
    · subst h0; simp [assign]
    · have h1 : ¬ key = k0 := fun h => h0 h.symm
      by_cases hm : key ∈ rest.map Prod.fst
      · simp only [assign, h0, if_false, List.map_cons, ih, hm, if_true, List.mem_cons, or_true]
      · simp only [assign, h0, if_false, List.map_cons, ih, hm, List.mem_cons, h1, or_self,
          List.cons_append]

theorem nodup_assign {α : Type} (m : List (String × α)) (key : String) (v : α)
    (h : (m.map Prod.fst).Nodup) : ((assign m key v).map Prod.fst).Nodup := by
  rw [keys_assign]
  split
  · exact h
  · next hm =>
    rw [List.nodup_append]
    refine ⟨h, List.nodup_singleton _, ?_⟩
    intro a ha hb
    simp at hb
    subst hb
    exact hm ha

theorem collectText_entry (form : Form) (keys : List String)
    (m : List (String × List String)) (k : String) :
    entry (collectText form keys m) k
      = if k ∈ keys then some (index form.Value k) else entry m k := by
  induction keys generalizing m with
  | nil => simp [collectText]
  | cons key rest ih =>
    simp only [collectText, ih, entry_assign, List.mem_cons]
    by_cases h1 : k ∈ rest
    · simp [h1]
    · by_cases h2 : k = key
      · simp [h2]
      · simp [h1, h2]

theorem collectText_nodup (form : Form) (keys : List String)
    (m : List (String × List String)) (h : (m.map Prod.fst).Nodup) :
    ((collectText form keys m).map Prod.fst).Nodup := by
  induction keys generalizing m with
  | nil => simpa [collectText] using h
  | cons key rest ih => exact ih _ (nodup_assign m key _ h)

end httputils

namespace httputils

open commonerror

/-- C8: on a successfully parsed form whose requested parts all open and read,
`ExtractMultipleFileUploads` returns, with a nil error, the concatenation over
`uploadKeys` in order (repeated keys repeated) of one `FileDetails` per part posted under
the key, in arrival order, each with the key, the filename of the part, its full bytes and the
type sniffed from them; so the length of the result is the sum over the keys of the
number of parts posted under each. -/
theorem extractMultipleFileUploads_result (DetectReader : List Nat → String) (r : Request)
    (uploadKeys : List String) (hp : r.parseErr = .nil)
    (hok : allReadable r.MultipartForm uploadKeys) :
    ExtractMultipleFileUploads DetectReader r uploadKeys
        = (uploadKeys.flatMap (detailsOf DetectReader r.MultipartForm), .nil)
      ∧ (ExtractMultipleFileUploads DetectReader r uploadKeys).1.length
        = (uploadKeys.map fun key => (index r.MultipartForm.File key).length).sum := by
  have h : ExtractMultipleFileUploads DetectReader r uploadKeys
      = (uploadKeys.flatMap (detailsOf DetectReader r.MultipartForm), .nil) := by
    simp [ExtractMultipleFileUploads, hp, extractKeys_ok DetectReader _ uploadKeys [] hok]
  refine ⟨h, ?_⟩
  rw [h]
  clear h hok
  induction uploadKeys with
  | nil => rfl
  | cons k rest ih =>
    simp only [List.flatMap_cons, List.length_append, List.map_cons, List.sum_cons, ih]
    simp [detailsOf]

/-- Witness of C8: a form with a two-byte and a one-byte file under `docs`, extracted for
the keys `docs`, `none`, `docs`. -/
theorem extractMultipleFileUploads_result_witness :
    allReadable
        { Value := [("name", ["alice"])],
          File := [("docs",
            [{ Filename := "a.png", ContentType := "text/plain", openErr := .nil,
               content := [137, 80], readErr := .nil },
             { Filename := "b.pdf", ContentType := "text/plain", openErr := .nil,
               content := [37], readErr := .nil }])] }
        ["docs", "none", "docs"]
      ∧ (ExtractMultipleFileUploads (fun data => if data = [37] then "application/pdf" else "image/png")
          { Body := "", Params := [], parseErr := .nil,
            MultipartForm :=
              { Value := [("name", ["alice"])],
                File := [("docs",
                  [{ Filename := "a.png", ContentType := "text/plain", openErr := .nil,
                     content := [137, 80], readErr := .nil },
                   { Filename := "b.pdf", ContentType := "text/plain", openErr := .nil,
                     content := [37], readErr := .nil }])] } }
          ["docs", "none", "docs"]).1.length = 4 :=
  ⟨by simp [allReadable, index],
    (extractMultipleFileUploads_result
      (fun data => if data = [37] then "application/pdf" else "image/png")
      { Body := "", Params := [], parseErr := .nil,
        MultipartForm :=
          { Value := [("name", ["alice"])],
            File := [("docs",
              [{ Filename := "a.png", ContentType := "text/plain", openErr := .nil,
                 content := [137, 80], readErr := .nil },
               { Filename := "b.pdf", ContentType := "text/plain", openErr := .nil,
                 content := [37], readErr := .nil }])] } }
      ["docs", "none", "docs"] rfl (by simp [allReadable, index])).2⟩

/-- C9, as stated, fails: the form parses, the text key `name` was posted with the value
`alice`, but the file part under `docs` does not open; `ExtractBodyAndFileUploads` then
returns the empty result with the error, and `Body` has no entry for `name`. -/
theorem extractBody_empty_when_part_fails :
    (ExtractBodyAndFileUploads (fun _ => "image/png")
        { Body := "", Params := [], parseErr := .nil,
          MultipartForm :=
            { Value := [("name", ["alice"])],
              File := [("docs",
                [{ Filename := "a.png", ContentType := "image/png",
                   openErr := .foreign "open /tmp/multipart-1: no such file or directory"
                     "\x7b\"Op\":\"open\",\"Path\":\"/tmp/multipart-1\",\"Err\":2\x7d",
                   content := [], readErr := .nil }])] } }
        ["docs"] ["name"]).1
      = { Files := [], Body := [] } := by
  decide

/-- C9, amended: for every request, file key list and text key list, the `Files` and the
error `ExtractBodyAndFileUploads` returns are those `ExtractMultipleFileUploads` returns
for the same request and file keys; and when the form parses and the requested file parts
all open and read, the error is nil and `Body` holds exactly one entry per requested text
key, mapping it to the full ordered list of values posted under it (the empty list when
none were posted). -/
theorem extractBodyAndFileUploads_result (DetectReader : List Nat → String) (r : Request)
    (fileUploadKeys textKeys : List String) :
    ((ExtractBodyAndFileUploads DetectReader r fileUploadKeys textKeys).1.Files
          = (ExtractMultipleFileUploads DetectReader r fileUploadKeys).1
        ∧ (ExtractBodyAndFileUploads DetectReader r fileUploadKeys textKeys).2
          = (ExtractMultipleFileUploads DetectReader r fileUploadKeys).2)
      ∧ (r.parseErr = .nil → allReadable r.MultipartForm fileUploadKeys →
          (ExtractBodyAndFileUploads DetectReader r fileUploadKeys textKeys).2 = .nil
          ∧ (∀ k, entry (ExtractBodyAndFileUploads DetectReader r fileUploadKeys textKeys).1.Body k
                = if k ∈ textKeys then some (index r.MultipartForm.Value k) else none)
          ∧ ((ExtractBodyAndFileUploads DetectReader r fileUploadKeys textKeys).1.Body.map
                Prod.fst).Nodup) := by
  constructor
  · unfold ExtractBodyAndFileUploads ExtractMultipleFileUploads
    by_cases hp : r.parseErr = .nil
    · simp only [hp, ne_eq, not_true_eq_false, if_false, bodyFileKeys_eq]
      by_cases he : (extractKeys DetectReader r.MultipartForm fileUploadKeys []).2 = .nil
      · simp [he]
      · simp [he, extractKeys_error DetectReader r.MultipartForm fileUploadKeys [] he]
    · simp [hp]
  · intro hp hok
    have hk := extractKeys_ok DetectReader r.MultipartForm fileUploadKeys [] hok
    have hres : ExtractBodyAndFileUploads DetectReader r fileUploadKeys textKeys
        = ({ Files := fileUploadKeys.flatMap (detailsOf DetectReader r.MultipartForm),
             Body := collectText r.MultipartForm textKeys [] }, .nil) := by
      simp [ExtractBodyAndFileUploads, hp, bodyFileKeys_eq, hk]
    rw [hres]
    refine ⟨rfl, ?_, ?_⟩
    · intro k
      simp [collectText_entry, entry]
    · exact collectText_nodup _ _ _ (by simp)

/-- Witness of C9 (amended): the text field `name=alice` and one readable file under
`docs`. -/
theorem extractBodyAndFileUploads_result_witness :
    allReadable
        { Value := [("name", ["alice"])],
          File := [("docs",
            [{ Filename := "a.png", ContentType := "text/plain", openErr := .nil,
               content := [137, 80], readErr := .nil }])] }
        ["docs"]
      ∧ (ExtractBodyAndFileUploads (fun _ => "image/png")
          { Body := "", Params := [], parseErr := .nil,
            MultipartForm :=
              { Value := [("name", ["alice"])],
                File := [("docs",
                  [{ Filename := "a.png", ContentType := "text/plain", openErr := .nil,
                     content := [137, 80], readErr := .nil }])] } }
          ["docs"] ["name", "age"]).2 = .nil :=
  ⟨by simp [allReadable, index],
    ((extractBodyAndFileUploads_result (fun _ => "image/png")
      { Body := "", Params := [], parseErr := .nil,
        MultipartForm :=
          { Value := [("name", ["alice"])],
            File := [("docs",
              [{ Filename := "a.png", ContentType := "text/plain", openErr := .nil,
                 content := [137, 80], readErr := .nil }])] } }
      ["docs"] ["name", "age"]).2 rfl (by simp [allReadable, index])).1⟩

end httputils

/-! ## Theorems: the envelope, the path parameter, foreign errors -/

namespace httputils

open commonerror

/-- C11, as stated, fails: `NewSuccessResponse(nil)` has neither data nor error
populated, and neither has `NewErrorResponse(nil)`. -/
theorem factories_populate_nothing_on_nil :
    (NewSuccessResponse .null).Data = .null ∧ (NewSuccessResponse .null).Error = .nil
      ∧ (NewErrorResponse .nil).Data = .null ∧ (NewErrorResponse .nil).Error = .nil := by
  decide

/-- C11, amended: for every value `v`, `NewSuccessResponse(v)` has status `success`, holds
`v` as data and no error, so its data is populated exactly when `v` is not nil; for every
error `e`, `NewErrorResponse(e)` has status `error`, holds `e` as error and no data, so
its error is populated exactly when `e` is not nil.  At most one of data and error is
populated, aligned with the status. -/
theorem factories_envelope (v : Value) (e : GoError) :
    ((NewSuccessResponse v).Status = "success" ∧ (NewSuccessResponse v).Error = .nil
        ∧ ((NewSuccessResponse v).Data ≠ .null ↔ v ≠ .null)
        ∧ (NewSuccessResponse v).Data = v)
      ∧ ((NewErrorResponse e).Status = "error" ∧ (NewErrorResponse e).Data = .null
        ∧ ((NewErrorResponse e).Error ≠ .nil ↔ e ≠ .nil)
        ∧ (NewErrorResponse e).Error = e) := by
  simp [NewSuccessResponse, NewErrorResponse, successMessage, failureMessage]

/-- C12, the code at the failing inputs: the envelope of `errors.New("db exploded")`
serializes with the error field `{}`, and `ServeError` answers a wrapped Unauthorized
error with status 401 and that same body; no `message` is written. -/
theorem envelope_of_foreign_error_is_empty_object :
    json.Marshal (NewErrorResponse (.foreign "db exploded" "\x7b\x7d"))
        = ("\x7b\"status\":\"error\",\"error\":\x7b\x7d\x7d", .nil)
      ∧ IsUnathourizedError (Wrap (.api (UnauthorizedError [])) "ctx") = true
      ∧ (ServeError json.Marshal 2 (Wrap (.api (UnauthorizedError [])) "ctx")
          { calls := [], log := [] }).map (fun w => (sentStatus w.calls, sentBody w.calls))
        = some (some 401, "\x7b\"status\":\"error\",\"error\":\x7b\x7d\x7d") := by
  decide

theorem ByName_eq_entry (ps : List (String × String)) (name : String) :
    ByName ps name = (entry ps name).getD "" := by
  induction ps with
  | nil => rfl
  | cons kv rest ih =>
    obtain ⟨k, v⟩ := kv
    by_cases h : k = name <;> simp [ByName, entry, h, ih]

/-- C13: whenever the path parameter named `idKey` is missing from the request context or
bound to the empty string, `RetrieveUUIDResource` returns the empty UUID together with
`BadRequestError` carrying params `{idKey: "<idKey> not found in request"}`. -/
theorem retrieveUUID_missing (r : Request) (idKey : String)
    (h : entry r.Params idKey = none ∨ entry r.Params idKey = some "") :
    RetrieveUUIDResource r idKey
      = ("", .api (BadRequestError [(idKey, .str (idKey ++ " not found in request"))])) := by
  have hb : ByName r.Params idKey = "" := by
    rw [ByName_eq_entry]
    rcases h with h | h <;> simp [h]
  simp [RetrieveUUIDResource, hb, ErrorParams.ToBadRequest, NewErrorParams]

/-- Witness of C13: no parameter `id` is bound (only `name` is). -/
theorem retrieveUUID_missing_witness :
    (entry [("name", "alice")] "id" = none ∨ entry [("name", "alice")] "id" = some "")
      ∧ RetrieveUUIDResource
          { Body := "", Params := [("name", "alice")], parseErr := .nil,
            MultipartForm := { Value := [], File := [] } } "id"
        = ("", .api (BadRequestError [("id", .str ("id" ++ " not found in request"))])) :=
  ⟨by decide,
    retrieveUUID_missing
      { Body := "", Params := [("name", "alice")], parseErr := .nil,
        MultipartForm := { Value := [], File := [] } } "id" (by decide)⟩

/-- C16: if parsing the multipart form fails, `ExtractMultipleFileUploads` returns the
empty list together with the parse error itself. -/
theorem extractMultipleFileUploads_parse_error (DetectReader : List Nat → String)
    (r : Request) (uploadKeys : List String) (h : r.parseErr ≠ .nil) :
    ExtractMultipleFileUploads DetectReader r uploadKeys = ([], r.parseErr) := by
  simp [ExtractMultipleFileUploads, h]

/-- Witness of C16: the form does not parse although a file part is at hand. -/
theorem extractMultipleFileUploads_parse_error_witness :
    GoError.foreign "multipart: NextPart: EOF" "\x7b\x7d" ≠ GoError.nil
      ∧ ExtractMultipleFileUploads (fun _ => "image/png")
          { Body := "", Params := [],
            parseErr := .foreign "multipart: NextPart: EOF" "\x7b\x7d",
            MultipartForm :=
              { Value := [],
                File := [("docs",
                  [{ Filename := "a.png", ContentType := "image/png", openErr := .nil,
                     content := [137, 80], readErr := .nil }])] } }
          ["docs"]
        = ([], .foreign "multipart: NextPart: EOF" "\x7b\x7d") :=
  ⟨by decide,
    extractMultipleFileUploads_parse_error (fun _ => "image/png")
      { Body := "", Params := [],
        parseErr := .foreign "multipart: NextPart: EOF" "\x7b\x7d",
        MultipartForm :=
          { Value := [],
            File := [("docs",
              [{ Filename := "a.png", ContentType := "image/png", openErr := .nil,
                 content := [137, 80], readErr := .nil }])] } }
      ["docs"] (by decide)⟩

end httputils

namespace commonerror

/-- C14: all four predicates return false for the nil error and for every error whose
root cause is not an `Error` value, wrapped any number of times or not at all; the
predicates are total, so none of these calls can fail. -/
theorem predicates_false_off_api :
    (IsBadRequestError .nil = false ∧ IsUnathourizedError .nil = false
        ∧ IsUnAuthenticatedError .nil = false ∧ IsServerError .nil = false)
      ∧ ∀ (e : GoError) (messages : List String), (∀ a : Error, Cause e ≠ .api a) →
          IsBadRequestError (wrapAll e messages) = false
            ∧ IsUnathourizedError (wrapAll e messages) = false
            ∧ IsUnAuthenticatedError (wrapAll e messages) = false
            ∧ IsServerError (wrapAll e messages) = false := by
  refine ⟨by decide, ?_⟩
  intro e messages h
  unfold IsBadRequestError IsUnathourizedError IsUnAuthenticatedError IsServerError
  rw [Cause_wrapAll]
  cases hc : Cause e with
  | api a => exact absurd hc (h a)
  | _ => simp

/-- Witness of C14: `errors.New("db exploded")` wrapped twice. -/
theorem predicates_false_off_api_witness :
    (∀ a : Error, Cause (.foreign "db exploded" "\x7b\x7d") ≠ .api a)
      ∧ IsBadRequestError (wrapAll (.foreign "db exploded" "\x7b\x7d") ["a", "b"]) = false
      ∧ IsUnathourizedError (wrapAll (.foreign "db exploded" "\x7b\x7d") ["a", "b"]) = false
      ∧ IsUnAuthenticatedError (wrapAll (.foreign "db exploded" "\x7b\x7d") ["a", "b"]) = false
      ∧ IsServerError (wrapAll (.foreign "db exploded" "\x7b\x7d") ["a", "b"]) = false :=
  ⟨fun a h => by simp [Cause] at h,
    predicates_false_off_api.2 (.foreign "db exploded" "\x7b\x7d") ["a", "b"]
      (fun a h => by simp [Cause] at h)⟩

end commonerror

/-! ## Theorems: sniffed content types, bad-request bodies, re-entry of the writers -/

namespace httputils

open commonerror

theorem extractParts_contentType (DetectReader : List Nat → String) (key : String)
    (hs : List FileHeader) (fd : List FileDetails)
    (h : ∀ f ∈ fd, f.ContentType = DetectReader f.Data) :
    ∀ f ∈ (extractParts DetectReader key hs fd).1, f.ContentType = DetectReader f.Data := by
  induction hs generalizing fd with
  | nil => simpa [extractParts] using h
  | cons x rest ih =>
    unfold extractParts
    by_cases h1 : x.openErr = .nil
    · simp only [h1, ne_eq, not_true_eq_false, if_false]
      by_cases h2 : (readFile x).2 = .nil
      · simp only [h2, ne_eq, not_true_eq_false, if_false]
        apply ih
        intro f hf
        rcases List.mem_append.1 hf with hf | hf
        · exact h f hf
        · simp only [List.mem_singleton] at hf
          subst hf
          rfl
      · simp [h2]
    · simp [h1]

theorem extractKeys_contentType (DetectReader : List Nat → String) (form : Form)
    (keys : List String) (fd : List FileDetails)
    (h : ∀ f ∈ fd, f.ContentType = DetectReader f.Data) :
    ∀ f ∈ (extractKeys DetectReader form keys fd).1, f.ContentType = DetectReader f.Data := by
  induction keys generalizing fd with
  | nil => simpa [extractKeys] using h
  | cons k rest ih =>
    unfold extractKeys
    by_cases h1 : (extractParts DetectReader k (index form.File k) fd).2 = .nil
    · simp only [h1, ne_eq, not_true_eq_false, if_false]
      exact ih _ (extractParts_contentType DetectReader k _ fd h)
    · simp [h1]

theorem extractMultiple_contentType (DetectReader : List Nat → String) (r : Request)
    (keys : List String) :
    ∀ f ∈ (ExtractMultipleFileUploads DetectReader r keys).1,
      f.ContentType = DetectReader f.Data := by
  unfold ExtractMultipleFileUploads
  by_cases hp : r.parseErr = .nil
  · simp only [hp, ne_eq, not_true_eq_false, if_false]
    exact extractKeys_contentType DetectReader _ keys [] (by simp)
  · simp [hp]

theorem extractBody_contentType (DetectReader : List Nat → String) (r : Request)
    (fileKeys textKeys : List String) :
    ∀ f ∈ (ExtractBodyAndFileUploads DetectReader r fileKeys textKeys).1.Files,
      f.ContentType = DetectReader f.Data := by
  unfold ExtractBodyAndFileUploads
  by_cases hp : r.parseErr = .nil
  · simp only [hp, ne_eq, not_true_eq_false, if_false, bodyFileKeys_eq]
    by_cases he : (extractKeys DetectReader r.MultipartForm fileKeys []).2 = .nil
    · simp only [he, ne_eq, not_true_eq_false, if_false]
      exact extractKeys_contentType DetectReader _ fileKeys [] (by simp)
    · simp [he]
  · simp [hp]

/-- C15: for every file extracted by `ExtractMultipleFileUploads` or
`ExtractBodyAndFileUploads`, `ContentType` is the sniffer applied to `Data`; so two
extracted files with equal `Data`, from whatever requests, keys, filenames and part
headers, have equal `ContentType`. -/
theorem contentType_is_sniffed_from_data (DetectReader : List Nat → String)
    (r1 r2 : Request) (keys1 keys2 textKeys : List String) :
    (∀ f ∈ (ExtractMultipleFileUploads DetectReader r1 keys1).1,
        f.ContentType = DetectReader f.Data)
      ∧ (∀ f ∈ (ExtractBodyAndFileUploads DetectReader r1 keys1 textKeys).1.Files,
        f.ContentType = DetectReader f.Data)
      ∧ (∀ f ∈ (ExtractMultipleFileUploads DetectReader r1 keys1).1,
          ∀ g ∈ (ExtractBodyAndFileUploads DetectReader r2 keys2 textKeys).1.Files,
            f.Data = g.Data → f.ContentType = g.ContentType) := by
  refine ⟨extractMultiple_contentType _ _ _, extractBody_contentType _ _ _ _, ?_⟩
  intro f hf g hg hd
  rw [extractMultiple_contentType _ _ _ f hf, extractBody_contentType _ _ _ _ g hg, hd]

/-- Witness of C15: the same two bytes posted as `a.png` under `docs` with the header
`text/plain` and as `b.bin` under `more` with the header `image/gif`. -/
theorem contentType_is_sniffed_from_data_witness :
    ({ UploadKey := "docs", FileName := "a.png", Data := [137, 80],
       ContentType := "image/png" } : FileDetails)
        ∈ (ExtractMultipleFileUploads
            (fun data => if data = [137, 80] then "image/png" else "text/plain")
            { Body := "", Params := [], parseErr := .nil,
              MultipartForm :=
                { Value := [],
                  File := [("docs",
                    [{ Filename := "a.png", ContentType := "text/plain", openErr := .nil,
                       content := [137, 80], readErr := .nil }])] } }
            ["docs"]).1
      ∧ ({ UploadKey := "docs", FileName := "a.png", Data := [137, 80],
           ContentType := "image/png" } : FileDetails).ContentType
        = (fun data => if data = [137, 80] then "image/png" else "text/plain") [137, 80] :=
  ⟨by decide,
    (contentType_is_sniffed_from_data
      (fun data => if data = [137, 80] then "image/png" else "text/plain")
      { Body := "", Params := [], parseErr := .nil,
        MultipartForm :=
          { Value := [],
            File := [("docs",
              [{ Filename := "a.png", ContentType := "text/plain", openErr := .nil,
                 content := [137, 80], readErr := .nil }])] } }
      { Body := "", Params := [], parseErr := .nil,
        MultipartForm := { Value := [], File := [] } }
      ["docs"] [] []).1 _ (by decide)⟩

theorem exists_errDTO (err : GoError) :
    ∃ dto : Error, dto = match err with
      | .api e => e
      | _ => { Code := "", Message := err.Error, Params := [] } := ⟨_, rfl⟩

/-- C17, as stated, fails: of the bad-request `Error` whose params hold a channel,
`IsBadRequestError` is true and the error itself is an `Error` value, but its envelope does
not serialize; the 400 body is the envelope of the serializer error text instead. -/
theorem badRequest_body_of_unserializable_error :
    IsBadRequestError
        (.api { Code := "invalid request body",
                Message := "One or more inputs are invalid, please enter valid information",
                Params := [("c", .unsupported "chan int")] }) = true
      ∧ (json.Marshal (NewErrorResponse
          (.api { Code := "invalid request body",
                  Message := "One or more inputs are invalid, please enter valid information",
                  Params := [("c", .unsupported "chan int")] }))).2 ≠ .nil
      ∧ (ServeError json.Marshal 2
          (.api { Code := "invalid request body",
                  Message := "One or more inputs are invalid, please enter valid information",
                  Params := [("c", .unsupported "chan int")] })
          { calls := [], log := [] }).map (fun w => (sentStatus w.calls, sentBody w.calls))
        = some (some 400,
            "\x7b\"status\":\"error\",\"error\":\x7b\"message\":\"json: unsupported type: chan int\"\x7d\x7d") := by
  decide

/-- C17, amended: for every error `err` that `ServeError` classifies as a bad request the
status sent is 400, and the body is: the serialized envelope of `err` when `err` itself is
an `Error` value and that envelope serializes; the serialized envelope of
`Error{Message: err.Error()}`, with no code and no params, when `err` is not an `Error`
value (a wrapped bad request); and, when `err` is an `Error` value whose envelope does not
serialize, the serialized envelope of `Error{Message: <text of the serializer error>}`. -/
theorem badRequest_body (fuel : Nat) (err : GoError) (w : Output)
    (hb : IsBadRequestError err = true) :
    ∃ (w2 : Output) (added : List Call),
      ServeError json.Marshal (fuel + 2) err w = some w2
        ∧ w2.calls = w.calls ++ added
        ∧ sentStatus added = some 400
        ∧ (∀ e : Error, err = .api e → (json.Marshal (NewErrorResponse err)).2 = .nil →
            sentBody added = (json.Marshal (NewErrorResponse err)).1)
        ∧ ((∀ e : Error, err ≠ .api e) →
            (json.Marshal (NewErrorResponse
                (.api { Code := "", Message := err.Error, Params := [] }))).2 = .nil
              ∧ sentBody added = (json.Marshal (NewErrorResponse
                (.api { Code := "", Message := err.Error, Params := [] }))).1)
        ∧ (∀ e : Error, err = .api e → (json.Marshal (NewErrorResponse err)).2 ≠ .nil →
            sentBody added = (json.Marshal (NewErrorResponse
              (.api { Code := "", Message := (json.Marshal (NewErrorResponse err)).2.Error,
                      Params := [] }))).1) := by
  obtain ⟨dto, hdto⟩ := exists_errDTO err
  have hne : ∀ t, unsupportedTypeError t ≠ GoError.nil := by
    intro t; simp [unsupportedTypeError]
  unfold ServeError
  simp only [hb, if_true]
  rcases marshal_error_cases (.api dto) with h | ⟨t, h⟩
  · rw [serveBadRequestError_ok (fuel + 1) err w dto hdto h]
    refine ⟨_, standardHeaders ++ [.writeHeader StatusBadRequest,
      .write (json.Marshal (NewErrorResponse (.api dto))).1], rfl, ?_, ?_, ?_, ?_, ?_⟩
    · rw [calls_of_reply, calls_Println]
    · simpa [StatusBadRequest] using sentStatus_reply 400 _ []
    · intro e he _
      subst he
      simp only at hdto
      subst hdto
      rw [sentBody_reply]
    · intro hno
      have hd : dto = { Code := "", Message := err.Error, Params := [] } := by
        cases err with
        | api e => exact absurd rfl (hno e)
        | _ => exact hdto
      rw [sentBody_reply, hd]
      exact ⟨marshal_message_only _, rfl⟩
    · intro e he hfail
      subst he
      simp only at hdto
      subst hdto
      exact absurd h hfail
  · rw [serveBadRequestError_retry fuel err w dto t hdto h]
    refine ⟨_, (standardHeaders ++ [.writeHeader StatusBadRequest,
      .write (json.Marshal (NewErrorResponse (.api
        { Code := "", Message := (unsupportedTypeError t).Error, Params := [] }))).1])
      ++ (standardHeaders ++ [.writeHeader StatusBadRequest, .write ""]), rfl, ?_, ?_, ?_, ?_, ?_⟩
    · rw [calls_of_reply, calls_of_reply, calls_Println, calls_Println, List.append_assoc]
    · simpa [StatusBadRequest] using sentStatus_reply 400 _ _
    · intro e he hok
      subst he
      simp only at hdto
      subst hdto
      rw [h] at hok
      exact absurd hok (hne t)
    · intro hno
      have hd : dto = { Code := "", Message := err.Error, Params := [] } := by
        cases err with
        | api e => exact absurd rfl (hno e)
        | _ => exact hdto
      rw [hd] at h
      have := marshal_message_only err.Error
      rw [h] at this
      exact absurd this (hne t)
    · intro e he _
      subst he
      simp only at hdto
      subst hdto
      rw [sentBody_append, sentBody_reply, sentBody_reply, h]
      simp

/-- Witness of C17 (amended): a bad request wrapped with a context message. -/
theorem badRequest_body_witness :
    IsBadRequestError (Wrap (.api (BadRequestError [])) "ctx") = true
      ∧ ∃ (w2 : Output) (added : List Call),
          ServeError json.Marshal 2 (Wrap (.api (BadRequestError [])) "ctx")
              { calls := [], log := [] } = some w2
            ∧ w2.calls = [] ++ added
            ∧ sentStatus added = some 400 :=
  ⟨by decide,
    (badRequest_body 0 (Wrap (.api (BadRequestError [])) "ctx") { calls := [], log := [] }
      (by decide)).imp fun _ h => h.imp fun _ h => ⟨h.1, h.2.1, h.2.2.1⟩⟩

theorem serveInternalError_never_returns (fuel : Nat) (err : GoError) (w : Output) :
    serveInternalError (fun _ => ("", GoError.foreign "broken" "\x7b\x7d")) fuel err w
      = none := by
  induction fuel generalizing err w with
  | zero => rfl
  | succ n ih =>
    unfold serveInternalError
    simp [ih]

theorem serveBadRequestError_never_returns (fuel : Nat) (err : GoError) (w : Output) :
    serveBadRequestError (fun _ => ("", GoError.foreign "broken" "\x7b\x7d")) fuel err w
      = none := by
  induction fuel generalizing err w with
  | zero => rfl
  | succ n ih =>
    unfold serveBadRequestError
    simp [ih]

/-- C18, the code at the failing inputs.  With `json.Marshal`, the Unauthorized `Error`
whose params hold a channel makes `ServeError` call `WriteHeader` twice (500, then 401)
and `Write` twice (the internal-error body, then nothing): after the internal-error writer
has replied, the 401 writer carries on.  And with a serializer that always fails,
`ServeError` returns for no error and no amount of fuel: the internal-error writer and the
bad-request writer re-enter themselves on every failure. -/
theorem writers_carry_on_after_delegating :
    (ServeError json.Marshal 2
        (.api { Code := "", Message := "Authentication details were not provided",
                Params := [("c", .unsupported "chan int")] })
        { calls := [], log := [] }).map (fun w => (statusCodes w.calls, writes w.calls))
      = some ([500, 401], [internalErrorBody, ""])
    ∧ ∀ (fuel : Nat) (err : GoError) (w : Output),
        ServeError (fun _ => ("", GoError.foreign "broken" "\x7b\x7d")) fuel err w = none := by
  refine ⟨by decide, ?_⟩
  intro fuel err w
  unfold ServeError serveUnauthorizedResponse serveAuthenticationErrResponse
  simp [serveInternalError_never_returns, serveBadRequestError_never_returns]

end httputils

/-! ## Theorems: `ctime.New` -/

namespace time

open commonerror

theorem digitChar_facts :
    ∀ k < 10, isDigit (digitChar k) = true ∧ digitVal (digitChar k) = k
      ∧ (digitChar k).toNat ≠ 45 ∧ (digitChar k).toNat ≠ 43 := by
  decide

theorem appendInt_four (n : Nat) (h : n < 10000) :
    appendInt (n : Int) 4
      = [digitChar (n / 1000), digitChar (n / 100 % 10), digitChar (n / 10 % 10),
         digitChar (n % 10)] := by
  have hneg : ¬ ((n : Int) < 0) := by omega
  simp only [appendInt, hneg, if_false, Int.natAbs_ofNat, List.nil_append]
  by_cases h1 : n < 10
  · have e1 : n / 1000 = 0 := by omega
    have e2 : n / 100 % 10 = 0 := by omega
    have e3 : n / 10 % 10 = 0 := by omega
    have e4 : n % 10 = n := by omega
    simp [decimalAux, h1, e1, e2, e3, e4, digitChar, List.replicate]
  · by_cases h2 : n < 100
    · have c1 : n / 10 < 10 := by omega
      have e1 : n / 1000 = 0 := by omega
      have e2 : n / 100 % 10 = 0 := by omega
      have e3 : n / 10 % 10 = n / 10 := by omega
      simp [decimalAux, h1, c1, e1, e2, e3, digitChar, List.replicate]
    · by_cases h3 : n < 1000
      · have c1 : ¬ n / 10 < 10 := by omega
        have c2 : n / 10 / 10 < 10 := by omega
        have e1 : n / 1000 = 0 := by omega
        have e2 : n / 100 % 10 = n / 10 / 10 := by omega
        have e3 : n / 10 % 10 = n / 10 % 10 := rfl
        simp [decimalAux, h1, c1, c2, e1, e2, digitChar, List.replicate]
      · have c1 : ¬ n / 10 < 10 := by omega
        have c2 : ¬ n / 10 / 10 < 10 := by omega
        have c3 : n / 10 / 10 / 10 < 10 := by omega
        have e1 : n / 1000 = n / 10 / 10 / 10 := by omega
        have e2 : n / 100 % 10 = n / 10 / 10 % 10 := by omega
        simp [decimalAux, h1, c1, c2, c3, e1, e2, digitChar, List.replicate]

theorem appendInt_two (n : Nat) (h : n < 100) :
    appendInt (n : Int) 2 = [digitChar (n / 10), digitChar (n % 10)] := by
  have hneg : ¬ ((n : Int) < 0) := by omega
  simp only [appendInt, hneg, if_false, Int.natAbs_ofNat, List.nil_append]
  by_cases h1 : n < 10
  · have e1 : n / 10 = 0 := by omega
    have e4 : n % 10 = n := by omega
    simp [decimalAux, h1, e1, e4, digitChar, List.replicate]
  · have c1 : n / 10 < 10 := by omega
    simp [decimalAux, h1, c1, digitChar, List.replicate]

theorem parseDateElems_digits (a b c d m1 m2 d1 d2 : Nat)
    (ha : a < 10) (hb : b < 10) (hc : c < 10) (hd : d < 10)
    (hm1 : m1 < 10) (hm2 : m2 < 10) (hd1 : d1 < 10) (hd2 : d2 < 10)
    (hm : ¬ (m1 * 10 + m2 = 0 ∨ 12 < m1 * 10 + m2)) :
    parseDateElems
        ([digitChar a, digitChar b, digitChar c, digitChar d] ++ [Char.ofNat 45]
          ++ [digitChar m1, digitChar m2] ++ [Char.ofNat 45] ++ [digitChar d1, digitChar d2])
      = some ((((((a * 10 + b) * 10 + c) * 10 + d : Nat)) : Int), m1 * 10 + m2, d1 * 10 + d2, []) := by
  obtain ⟨a1, a2, a3, a4⟩ := digitChar_facts a ha
  obtain ⟨b1, b2, _, _⟩ := digitChar_facts b hb
  obtain ⟨c1, c2, _, _⟩ := digitChar_facts c hc
  obtain ⟨e1, e2, _, _⟩ := digitChar_facts d hd
  obtain ⟨f1, f2, _, _⟩ := digitChar_facts m1 hm1
  obtain ⟨g1, g2, _, _⟩ := digitChar_facts m2 hm2
  obtain ⟨i1, i2, _, _⟩ := digitChar_facts d1 hd1
  obtain ⟨j1, j2, _, _⟩ := digitChar_facts d2 hd2
  have h45 : (Char.ofNat 45).toNat = 45 := by decide
  simp [parseDateElems, atoi, digitsValue, skip, getnum, a1, a2, a3, a4, b1, b2, c1, c2, e1, e2,
    f1, f2, g1, g2, i1, i2, j1, j2, h45]
  refine ⟨fun h1 h2 => hm (Or.inl (by omega)), by omega⟩

theorem ParseDate_formatDate (t : Time) (hw : t.wellFormed) (h0 : 0 ≤ t.year)
    (h1 : t.year ≤ 9999) :
    ParseDate (String.mk (formatDate t))
      = ({ year := t.year, month := t.month, day := t.day, hour := 0, minute := 0,
           second := 0, nanosecond := 0, offset := 0 }, .nil) := by
  obtain ⟨year, month, day, hour, minute, second, nanosecond, offset⟩ := t
  obtain ⟨hm1, hm2, hd1, hd2, _⟩ := hw
  simp only at h0 h1 hm1 hm2 hd1 hd2
  obtain ⟨n, rfl⟩ := Int.eq_ofNat_of_zero_le h0
  have hn : n < 10000 := by omega
  have hd3 : day ≤ 31 := by
    refine le_trans hd2 ?_
    unfold daysIn
    split
    · split <;> omega
    · split <;> omega
  have hparse := parseDateElems_digits (n / 1000) (n / 100 % 10) (n / 10 % 10) (n % 10)
    (month / 10) (month % 10) (day / 10) (day % 10)
    (by omega) (by omega) (by omega) (by omega) (by omega) (by omega) (by omega) (by omega)
    (by omega)
  have ey : (((n / 1000 * 10 + n / 100 % 10) * 10 + n / 10 % 10) * 10 + n % 10) = n := by omega
  have em : month / 10 * 10 + month % 10 = month := by omega
  have ed : day / 10 * 10 + day % 10 = day := by omega
  rw [ey, em, ed] at hparse
  have hfmt : formatDate
      { year := (n : Int), month := month, day := day, hour := hour, minute := minute,
        second := second, nanosecond := nanosecond, offset := offset }
      = [digitChar (n / 1000), digitChar (n / 100 % 10), digitChar (n / 10 % 10),
          digitChar (n % 10)] ++ [Char.ofNat 45]
        ++ [digitChar (month / 10), digitChar (month % 10)] ++ [Char.ofNat 45]
        ++ [digitChar (day / 10), digitChar (day % 10)] := by
    simp only [formatDate, appendInt_four n hn, appendInt_two month (by omega),
      appendInt_two day (by omega)]
  have hday : ¬ (day < 1 ∨ day > daysIn month (n : Int)) := by omega
  simp only [ParseDate, hfmt, hparse, List.length_nil, ne_eq, not_true_eq_false, if_false, hday]

end time

namespace ctime

open commonerror

/-- C19: for every Go time `t` (a real calendar reading) whose year is in 0..9999,
`New(t)` succeeds and returns the ISO8601 value for midnight UTC of the calendar date of
`t`: the date layout parses at the first attempt, so neither `NewISO8601` nor `New` takes
its full-timestamp fallback; `String()` of the result is the date of `t` followed by
`T00:00:00.000Z`, and `DateString()` is the date of `t`. -/
theorem new_discards_time_of_day (t : time.Time) (hw : t.wellFormed) (h0 : 0 ≤ t.year)
    (h1 : t.year ≤ 9999) :
    New t
        = ({ time := { year := t.year, month := t.month, day := t.day, hour := 0, minute := 0,
                       second := 0, nanosecond := 0, offset := 0 } }, .nil)
      ∧ (time.ParseDate (String.mk (time.formatDate t))).2 = .nil
      ∧ (NewISO8601 (String.mk (time.formatDate t))).2 = .nil
      ∧ (New t).1.String = String.mk (time.formatDate t) ++ "T00:00:00.000Z"
      ∧ (New t).1.DateString = String.mk (time.formatDate t) := by
  have hp := time.ParseDate_formatDate t hw h0 h1
  have hiso : NewISO8601 (String.mk (time.formatDate t))
      = ({ time := { year := t.year, month := t.month, day := t.day, hour := 0, minute := 0,
                     second := 0, nanosecond := 0, offset := 0 } }, .nil) := by
    simp [NewISO8601, hp]
  have hnew : New t
      = ({ time := { year := t.year, month := t.month, day := t.day, hour := 0, minute := 0,
                     second := 0, nanosecond := 0, offset := 0 } }, .nil) := by
    simp [New, hiso]
  refine ⟨hnew, by rw [hp], by rw [hiso], ?_, ?_⟩
  · rw [hnew]
    show String.mk (time.formatFull _) = String.mk (time.formatDate t) ++ "T00:00:00.000Z"
    have hz2 : time.appendInt ((0 : Nat) : Int) 2 = [Char.ofNat 48, Char.ofNat 48] := by decide
    have hz3 : time.appendInt ((0 / 1000000 % 1000 : Nat) : Int) 3
        = [Char.ofNat 48, Char.ofNat 48, Char.ofNat 48] := by decide
    have hd : time.formatDate
        { year := t.year, month := t.month, day := t.day, hour := 0, minute := 0,
          second := 0, nanosecond := 0, offset := 0 } = time.formatDate t := rfl
    simp only [time.formatFull, hz2, hz3, hd]
    apply String.ext
    simp [String.data_append]
    decide
  · rw [hnew]
    rfl

/-- Witness of C19: 29 February 2024, 13:05:09.123456789, one hour east of UTC. -/
theorem new_discards_time_of_day_witness :
    time.Time.wellFormed
        { year := 2024, month := 2, day := 29, hour := 13, minute := 5, second := 9,
          nanosecond := 123456789, offset := 3600 }
      ∧ (New { year := 2024, month := 2, day := 29, hour := 13, minute := 5, second := 9,
               nanosecond := 123456789, offset := 3600 }).1.String
        = "2024-02-29T00:00:00.000Z" :=
  ⟨by unfold time.Time.wellFormed; decide,
    (new_discards_time_of_day
      { year := 2024, month := 2, day := 29, hour := 13, minute := 5, second := 9,
        nanosecond := 123456789, offset := 3600 }
      (by unfold time.Time.wellFormed; decide) (by decide) (by decide)).2.2.2.1.trans
      (by decide)⟩

end ctime
